import Mathlib

/-!
Verification of the ingress2gateway nginx/ingressnginx provider core
(annotation → IR → Gateway-resource pipeline) against its specification.

Go strings are embedded as `List Char`; Go maps are embedded as association
lists whose list order stands in for one (arbitrary) Go map iteration order,
with `mapSet` modelling Go map assignment (replace the existing binding in
place, otherwise append).  Go `int`/`int64` are embedded as `Int` with
explicit 64-bit range checks where the source library (`strconv`) performs
them.  Fallible parsing returns `Option`/`Except`.
-/

namespace I2GW

/-- Go `string`, embedded as a list of characters. -/
abbrev GoString := List Char

/-- `types.NamespacedName` (k8s.io/apimachinery): a namespace/name pair.
The Go field `Namespace` is called `ns` here (`namespace` is a Lean keyword). -/
structure NamespacedName where
  ns : GoString
  name : GoString
deriving DecidableEq, Repr

/-- The zero value `types.NamespacedName{}` used as a sentinel by
`findHTTPRouteKey`. -/
def NamespacedName.zero : NamespacedName := ⟨[], []⟩

/-- Go map read `m[k]` without the ok-flag: first binding of `k`, if any. -/
def mapGet {κ α : Type} [DecidableEq κ] : List (κ × α) → κ → Option α
  | [], _ => none
  | (k', v) :: rest, k => if k' = k then some v else mapGet rest k

/-- Go map assignment `m[k] = v`: replace the existing binding in place,
otherwise append (insertion order models Go's arbitrary iteration order). -/
def mapSet {κ α : Type} [DecidableEq κ] : List (κ × α) → κ → α → List (κ × α)
  | [], k, v => [(k, v)]
  | (k', v') :: rest, k, v =>
    if k' = k then (k', v) :: rest else (k', v') :: mapSet rest k v

/-- Go map membership test `_, ok := m[k]`. -/
def mapHasKey {κ α : Type} [DecidableEq κ] (m : List (κ × α)) (k : κ) : Bool :=
  (mapGet m k).isSome

/-- Number of bindings of key `k` (for uniqueness statements). -/
def mapCountKey {κ α : Type} [DecidableEq κ] (m : List (κ × α)) (k : κ) : Nat :=
  (m.filter (fun p => p.1 = k)).length

/-- Go annotation-map read `annotations[key]`: missing keys yield `""`. -/
def annGet (anns : List (GoString × GoString)) (k : GoString) : GoString :=
  match mapGet anns k with
  | some v => v
  | none => []

/-- Go annotation-map presence test `_, exists := annotations[key]`. -/
def annHas (anns : List (GoString × GoString)) (k : GoString) : Bool :=
  mapHasKey anns k

/-- Numeric value of a (non-empty) list of decimal digit characters. -/
def digitsToNat (ds : GoString) : Nat :=
  ds.foldl (fun a c => 10 * a + (c.toNat - '0'.toNat)) 0

/-- Largest Go `int64`/`int` value (64-bit platform). -/
def int64Max : Int := 2 ^ 63 - 1

/-- Smallest Go `int64`/`int` value (64-bit platform). -/
def int64Min : Int := -(2 ^ 63)

/-- Go `strconv.Atoi` (= `ParseInt(s, 10, 64)` on a 64-bit platform):
optional sign, at least one decimal digit, value within `int64` range;
everything else is an error (`none`). -/
def goAtoi (s : GoString) : Option Int :=
  let signDigits : Int × GoString :=
    match s with
    | [] => (1, [])
    | c :: rest =>
      if c = '+' then (1, rest) else if c = '-' then (-1, rest) else (1, c :: rest)
  let sign := signDigits.1
  let ds := signDigits.2
  if ds = [] then none
  else if ds.all (fun c => c.isDigit) then
    let n : Int := sign * (digitsToNat ds : Int)
    if int64Min ≤ n ∧ n ≤ int64Max then some n else none
  else none

/-- ASCII whitespace, as recognized by `strings.TrimSpace` on ASCII input. -/
def isSpaceChar (c : Char) : Bool :=
  c = ' ' ∨ c = '\t' ∨ c = '\n' ∨ c = '\r'

/-- Go `strings.TrimSpace` (ASCII fragment; the inputs handled by this
provider are ASCII annotation values). -/
def goTrimSpace (s : GoString) : GoString :=
  ((s.dropWhile isSpaceChar).reverse.dropWhile isSpaceChar).reverse

/-- Go `strings.ToLower` on one ASCII character. -/
def toLowerChar (c : Char) : Char :=
  if 'A' ≤ c ∧ c ≤ 'Z' then Char.ofNat (c.toNat + 32) else c

/-- Go `strings.ToLower` (ASCII fragment). -/
def goToLower (s : GoString) : GoString := s.map toLowerChar

/-- Go `strings.ToUpper` on one ASCII character. -/
def toUpperChar (c : Char) : Char :=
  if 'a' ≤ c ∧ c ≤ 'z' then Char.ofNat (c.toNat - 32) else c

/-- Go `strings.ToUpper` (ASCII fragment). -/
def goToUpper (s : GoString) : GoString := s.map toUpperChar

/-- Go `fmt` rendering of an integer (used in de-duplication keys). -/
def intToStr (i : Int) : GoString :=
  if i < 0 then '-' :: Nat.toDigits 10 i.natAbs else Nat.toDigits 10 i.toNat

/-! ## Source data model (`networkingv1.Ingress`, restricted to the fields the
provider reads: metadata namespace/name/annotations and the routing spec). -/

/-- `networkingv1.ServiceBackendPort` (only the numeric form is read). -/
structure ServiceBackendPort where
  number : Int
deriving DecidableEq, Repr

/-- `networkingv1.IngressServiceBackend`. -/
structure IngressServiceBackend where
  name : GoString
  port : ServiceBackendPort
deriving DecidableEq, Repr

/-- `networkingv1.IngressBackend` (`Service` may be nil). -/
structure IngressBackend where
  service : Option IngressServiceBackend
deriving DecidableEq, Repr

/-- `networkingv1.HTTPIngressPath` (fields read by the feature passes). -/
structure HTTPIngressPath where
  path : GoString
  backend : IngressBackend
deriving DecidableEq, Repr

/-- `networkingv1.IngressRule`: `http = none` models a nil `rule.HTTP`. -/
structure IngressRule where
  host : GoString
  http : Option (List HTTPIngressPath)
deriving DecidableEq, Repr

/-- `networkingv1.IngressSpec` (fields read by the feature passes). -/
structure IngressSpec where
  defaultBackend : Option IngressBackend
  rules : List IngressRule
deriving DecidableEq, Repr

/-- One source object: namespace, name, annotation map and routing spec.
The Go annotation field is called `anns` here. -/
structure Ingress where
  ns : GoString
  name : GoString
  anns : List (GoString × GoString)
  spec : IngressSpec
deriving DecidableEq, Repr

/-- `field.Error` as produced by `field.Invalid(path, value, detail)`:
the path components, offending value and message. -/
structure FieldError where
  path : List GoString
  value : GoString
  detail : GoString
deriving DecidableEq, Repr

/-- `field.Invalid(field.NewPath("metadata", "annotations", key), v, msg)`. -/
def annErr (key v msg : GoString) : FieldError :=
  ⟨["metadata".toList, "annotations".toList, key], v, msg⟩

/-! ## Gateway API output model (fields read or written by this provider). -/

/-- `gatewayv1.ParentReference`: `Namespace` and `SectionName` are optional
pointers in the source. -/
structure ParentReference where
  name : GoString
  pNamespace : Option GoString
  sectionName : Option GoString
deriving DecidableEq, Repr

/-- `gatewayv1.HTTPRequestRedirectFilter` (fields set by this provider). -/
structure HTTPRequestRedirectFilter where
  scheme : Option GoString
  statusCode : Option Int
deriving DecidableEq, Repr

/-- `gatewayv1.HTTPRouteFilter`: the `Type` discriminator plus the
`RequestRedirect` payload (the only filter kind this provider builds). -/
structure HTTPRouteFilter where
  ftype : GoString
  requestRedirect : Option HTTPRequestRedirectFilter
deriving DecidableEq, Repr

/-- `gatewayv1.HTTPRouteRule` (only `Filters` is relevant here). -/
structure HTTPRouteRule where
  filters : List HTTPRouteFilter
deriving DecidableEq, Repr

/-- `gatewayv1.HTTPRoute`: metadata (namespace, name, labels, annotations)
plus the spec fields this provider reads or writes. -/
structure HTTPRoute where
  ns : GoString
  name : GoString
  labels : List (GoString × GoString)
  anns : List (GoString × GoString)
  parentRefs : List ParentReference
  hostnames : List GoString
  rules : List HTTPRouteRule
deriving DecidableEq, Repr

/-- `gatewayv1.Listener`: the transform only copies listeners between
gateways, so only identifying fields are modelled. -/
structure Listener where
  lName : GoString
  protocol : GoString
  port : Int
deriving DecidableEq, Repr

/-- `gatewayv1.Gateway`: metadata plus `Spec.GatewayClassName` and
`Spec.Listeners`. -/
structure Gateway where
  ns : GoString
  name : GoString
  gatewayClassName : GoString
  listeners : List Listener
deriving DecidableEq, Repr

/-- `i2gw.GatewayResources`, restricted to the two maps the topology
transform and the redirect-route materializer touch. -/
structure GatewayResources where
  gateways : List (NamespacedName × Gateway)
  httpRoutes : List (NamespacedName × HTTPRoute)
deriving DecidableEq, Repr

/-! ## Intermediate representation (pkg/i2gw/intermediate). -/

/-- `intermediate.ClientCertAuthConfig`. -/
structure ClientCertAuthConfig where
  secret : GoString
  verifyClient : GoString
  verifyDepth : Int
  errorPage : GoString
  passCertToUpstream : Bool
deriving DecidableEq, Repr

/-- `intermediate.ExternalAuthConfig`. -/
structure ExternalAuthConfig where
  url : GoString
  method : GoString
  signinURL : GoString
  responseHeaders : List GoString
  requestRedirect : GoString
  cacheKey : GoString
  cacheDuration : GoString
deriving DecidableEq, Repr

/-- `intermediate.IngressNginxHTTPRouteIR` (the provider-specific
route extension; the Go zero value has all fields unset). -/
structure IngressNginxHTTPRouteIR where
  sslRedirect : Bool
  proxyBuffering : Option Bool
  proxyRequestBuffering : Option Bool
  proxyBodySize : GoString
  rateLimitRPS : Int
  rateLimitBurst : Int
  clientCertAuth : Option ClientCertAuthConfig
  externalAuth : Option ExternalAuthConfig
deriving DecidableEq, Repr

/-- Zero value of `IngressNginxHTTPRouteIR` (allocation on first write). -/
def IngressNginxHTTPRouteIR.zero : IngressNginxHTTPRouteIR :=
  ⟨false, none, none, [], 0, 0, none, none⟩

/-- `intermediate.IngressNginxServiceIR` (fields written by the passes). -/
structure IngressNginxServiceIR where
  backendProtocol : GoString
  loadBalanceAlgorithm : GoString
deriving DecidableEq, Repr

/-- Zero value of `IngressNginxServiceIR`. -/
def IngressNginxServiceIR.zero : IngressNginxServiceIR := ⟨[], []⟩

/-- The provider-specific sub-record of a route context
(`ProviderSpecificIR.IngressNginx`, nil until first write). -/
structure ProviderSpecificHTTPRouteIR where
  ingressNginx : Option IngressNginxHTTPRouteIR
deriving DecidableEq, Repr

/-- `intermediate.HTTPRouteContext`: the generic route payload plus the
lazily allocated provider-specific record. -/
structure HTTPRouteContext where
  httpRoute : HTTPRoute
  providerSpecificIR : ProviderSpecificHTTPRouteIR
deriving DecidableEq, Repr

/-- `intermediate.ServiceContext` (only the nginx sub-record is used). -/
structure ServiceContext where
  ingressNginx : Option IngressNginxServiceIR
deriving DecidableEq, Repr

/-- `gatewayv1.BackendTLSPolicy`, restricted to the fields
`buildBackendTLSPolicy` sets: metadata, the single Service target ref, the
validation hostname, and the CA choice (explicit ConfigMap ref vs the
well-known system set — mutually exclusive in the source). -/
structure BackendTLSPolicy where
  name : GoString
  ns : GoString
  targetServiceName : GoString
  validationHostname : GoString
  caCertConfigMap : Option GoString
  wellKnownCACerts : Option GoString
deriving DecidableEq, Repr

/-- `intermediate.IR`, restricted to the maps the modelled passes touch. -/
structure IR where
  httpRoutes : List (NamespacedName × HTTPRouteContext)
  services : List (NamespacedName × ServiceContext)
  backendTLSPolicies : List (NamespacedName × BackendTLSPolicy)
deriving DecidableEq, Repr

/-- Notification severities of the diagnostics sink
(`notifications`): ordered info < warning < error (blocking). -/
inductive NotifType
  | info
  | warning
  | error
deriving DecidableEq, Repr

/-- One emitted diagnostic: severity, message, and the originating object
(`notify(type, message, &ing)`); the sink itself is an external
collaborator, so emissions are collected in a list. -/
structure Notif where
  ntype : NotifType
  message : GoString
  objName : Option NamespacedName
deriving DecidableEq, Repr

/-- Zero value of `gatewayv1.HTTPRoute` (as read from a Go map miss). -/
def HTTPRoute.zero : HTTPRoute := ⟨[], [], [], [], [], [], []⟩

/-- Zero value of `intermediate.HTTPRouteContext`. -/
def HTTPRouteContext.zero : HTTPRouteContext := ⟨HTTPRoute.zero, ⟨none⟩⟩

/-! ## findHTTPRouteKey (proxy_settings.go) -/

/-- `findHTTPRouteKey`: returns the first route key in the same namespace
as the ingress ("For simplicity, return the first route in the same
namespace" per the source comment), or the zero `NamespacedName` when the
namespace holds no route.  List order models Go map iteration order. -/
def findHTTPRouteKey (ir : IR) (ingressKey : NamespacedName) : NamespacedName :=
  match ir.httpRoutes.find? (fun p => decide (p.1.ns = ingressKey.ns)) with
  | some p => p.1
  | none => NamespacedName.zero

/-! ## Body size parsing (envoy_filter.go `ParseBodySize`,
`buildBodySizeEnvoyFilter`).  Note the repository carries a second, older
`ParseBodySize` in proxy_settings.go; the one modelled here is the
envoy_filter.go version used by `buildBodySizeEnvoyFilter`. -/

/-- Wrap-around of Go `int64` multiplication overflow. -/
def wrap64 (x : Int) : Int := (x + 2 ^ 63) % 2 ^ 64 - 2 ^ 63

/-- `ParseBodySize` (envoy_filter.go): "" and "0" parse to 0; after
lower-casing and trimming, "unlimited" and "-1" parse to 0 (unlimited);
a `k`/`m`/`g` suffix selects a binary multiplier; the remaining numeral is
parsed with `strconv.ParseInt(_, 10, 64)`; a non-numeral is an error. -/
def ParseBodySize (size : GoString) : Except GoString Int :=
  if size = [] ∨ size = "0".toList then Except.ok 0
  else
    let size := goToLower (goTrimSpace size)
    if size = "unlimited".toList ∨ size = "-1".toList then Except.ok 0
    else
      let multNum : Int × GoString :=
        if size.getLast? = some 'k' then (1024, size.dropLast)
        else if size.getLast? = some 'm' then (1024 * 1024, size.dropLast)
        else if size.getLast? = some 'g' then (1024 * 1024 * 1024, size.dropLast)
        else (1, size)
      match goAtoi multNum.2 with
      | none => Except.error ("invalid body size: ".toList ++ size)
      | some num => Except.ok (wrap64 (num * multNum.1))

/-- The body-size EnvoyFilter object, restricted to the fields
`buildBodySizeEnvoyFilter` computes (metadata, target Gateway reference,
source annotation value, and the two byte limits it patches in). -/
structure BodySizeEnvoyFilter where
  name : GoString
  ns : GoString
  gatewayName : GoString
  gatewayNamespace : GoString
  sourceBodySize : GoString
  maxDirectResponseBodySizeBytes : Int
  maxRequestBytes : Int
deriving DecidableEq, Repr

/-- `buildBodySizeEnvoyFilter`: parses the body size and falls back to
1 GiB (`1024*1024*1024`) when parsing fails or yields 0 (unlimited). -/
def buildBodySizeEnvoyFilter (key : NamespacedName) (gatewayNamespace gatewayName bodySize : GoString) :
    BodySizeEnvoyFilter :=
  let bytes : Int :=
    match ParseBodySize bodySize with
    | Except.error _ => 1024 * 1024 * 1024
    | Except.ok b => if b = 0 then 1024 * 1024 * 1024 else b
  { name := key.name
  , ns := key.ns
  , gatewayName := gatewayName
  , gatewayNamespace := gatewayNamespace
  , sourceBodySize := bodySize
  , maxDirectResponseBodySizeBytes := bytes
  , maxRequestBytes := bytes }

/-! ## Rate limiting (part_002: `rateLimitFeature`, `parseRateLimitConfig`,
`parseZoneRate`).  The Go annotation-name constants end in `Annotation`;
they are abbreviated to `Ann` here. -/

def limitRPSAnn : GoString := "nginx.ingress.kubernetes.io/limit-rps".toList

def limitRPMAnn : GoString := "nginx.ingress.kubernetes.io/limit-rpm".toList

def limitConnectionsAnn : GoString := "nginx.ingress.kubernetes.io/limit-connections".toList

def limitBurstAnn : GoString := "nginx.ingress.kubernetes.io/limit-burst-multiplier".toList

def limitReqZoneAnn : GoString := "nginx.ingress.kubernetes.io/limit-req-zone".toList

/-- `rateLimitConfig` (part_002). -/
structure RateLimitConfig where
  rps : Int
  rpm : Int
  connections : Int
  burst : Int
  zone : GoString
deriving DecidableEq, Repr

/-- Zero value of `rateLimitConfig` (`&rateLimitConfig{}`). -/
def RateLimitConfig.zero : RateLimitConfig := ⟨0, 0, 0, 0, []⟩

/-- Split a string at leading decimal digits. -/
def takeDigits : GoString → GoString × GoString
  | [] => ([], [])
  | c :: rest =>
    if c.isDigit then
      let p := takeDigits rest
      (c :: p.1, p.2)
    else ([], c :: rest)

/-- Drop `p` from the front of `s` if it is there. -/
def dropLit : GoString → GoString → Option GoString
  | [], s => some s
  | _, [] => none
  | a :: ps, b :: ss => if a = b then dropLit ps ss else none

/-- Try to match `rate=<digits>r/<unit>` at the head of `s`, returning the
captured digit value.  The digit run is maximal, which coincides with the
greedy `\d+` of Go's regexp (no backtracking can succeed: a shorter run
would have to be followed by `r`, but the next character is a digit). -/
def matchRateAt (unit : Char) (s : GoString) : Option Nat :=
  match dropLit ("rate=".toList) s with
  | none => none
  | some rest =>
    let p := takeDigits rest
    if p.1 = [] then none
    else
      match dropLit ['r', '/', unit] p.2 with
      | none => none
      | some _ => some (digitsToNat p.1)

/-- Leftmost match of `rate=(\d+)r/<unit>` in the string: embedding of
`regexp.FindStringSubmatch` for the two patterns of `parseZoneRate`. -/
def zoneScan (unit : Char) : GoString → Option Nat
  | [] => none
  | c :: rest =>
    match matchRateAt unit (c :: rest) with
    | some n => some n
    | none => zoneScan unit rest

/-- `parseZoneRate` (part_002): extracts the rate from a `limit-req-zone`
descriptor.  The `r/s` pattern is tried first and the `r/m` pattern second;
a successful `r/m` match overwrites the `r/s` result.  `strconv.Atoi` on a
captured digit run only fails on `int64` overflow.  The Go error return is
always nil, so only the config is returned. -/
def parseZoneRate (zone : GoString) : RateLimitConfig :=
  let config := RateLimitConfig.zero
  let config :=
    match zoneScan 's' zone with
    | some n => if (n : Int) ≤ int64Max then { config with rps := (n : Int) } else config
    | none => config
  let config :=
    match zoneScan 'm' zone with
    | some n =>
      if (n : Int) ≤ int64Max then
        let r := Int.tdiv (n : Int) 60
        { config with rps := if r = 0 ∧ 0 < (n : Int) then 1 else r }
      else config
    | none => config
  config

/-- The limit-rps block of `parseRateLimitConfig` on the running
(config, errors, hasConfig) state. -/
def rlStepRPS (anns : List (GoString × GoString)) (st : RateLimitConfig × List FieldError × Bool) :
    RateLimitConfig × List FieldError × Bool :=
  let rps := annGet anns limitRPSAnn
  if rps ≠ [] then
    match goAtoi rps with
    | none => (st.1, st.2.1 ++ [annErr limitRPSAnn rps ("invalid rate limit RPS value".toList)], st.2.2)
    | some val => ({ st.1 with rps := val }, st.2.1, true)
  else st

/-- The limit-rpm block of `parseRateLimitConfig`: converts RPM to RPS only
when RPS is still unset, dividing by 60 and raising a zero quotient to the
minimum 1 when the RPM value is positive. -/
def rlStepRPM (anns : List (GoString × GoString)) (st : RateLimitConfig × List FieldError × Bool) :
    RateLimitConfig × List FieldError × Bool :=
  let rpm := annGet anns limitRPMAnn
  if rpm ≠ [] then
    match goAtoi rpm with
    | none => (st.1, st.2.1 ++ [annErr limitRPMAnn rpm ("invalid rate limit RPM value".toList)], st.2.2)
    | some val =>
      let config : RateLimitConfig := { st.1 with rpm := val }
      let config : RateLimitConfig :=
        if config.rps = 0 then
          let r := Int.tdiv val 60
          { config with rps := if r = 0 ∧ 0 < val then 1 else r }
        else config
      (config, st.2.1, true)
  else st

/-- The limit-connections block of `parseRateLimitConfig`. -/
def rlStepConn (anns : List (GoString × GoString)) (st : RateLimitConfig × List FieldError × Bool) :
    RateLimitConfig × List FieldError × Bool :=
  let conn := annGet anns limitConnectionsAnn
  if conn ≠ [] then
    match goAtoi conn with
    | none => (st.1, st.2.1 ++ [annErr limitConnectionsAnn conn ("invalid connection limit value".toList)], st.2.2)
    | some val => ({ st.1 with connections := val }, st.2.1, true)
  else st

/-- The limit-burst-multiplier block of `parseRateLimitConfig` (burst is
the multiplier times the RPS resolved so far). -/
def rlStepBurst (anns : List (GoString × GoString)) (st : RateLimitConfig × List FieldError × Bool) :
    RateLimitConfig × List FieldError × Bool :=
  let burst := annGet anns limitBurstAnn
  if burst ≠ [] then
    match goAtoi burst with
    | none => (st.1, st.2.1 ++ [annErr limitBurstAnn burst ("invalid burst multiplier value".toList)], st.2.2)
    | some val => ({ st.1 with burst := st.1.rps * val }, st.2.1, true)
  else st

/-- The limit-req-zone block of `parseRateLimitConfig`: the zone-derived
rate applies only when the explicit annotations left RPS at 0. -/
def rlStepZone (anns : List (GoString × GoString)) (st : RateLimitConfig × List FieldError × Bool) :
    RateLimitConfig × List FieldError × Bool :=
  let zone := annGet anns limitReqZoneAnn
  if zone ≠ [] then
    let config : RateLimitConfig := { st.1 with zone := zone }
    let rateConfig := parseZoneRate zone
    let config : RateLimitConfig :=
      if 0 < rateConfig.rps then
        let config : RateLimitConfig :=
          if config.rps = 0 then { config with rps := rateConfig.rps } else config
        if config.burst = 0 ∧ 0 < rateConfig.burst then { config with burst := rateConfig.burst }
        else config
      else config
    (config, st.2.1, true)
  else st

/-- `parseRateLimitConfig` (part_002): the five annotation blocks in source
order (rps, rpm, connections, burst multiplier, zone).  Note the source
returns `nil, nil` when no annotation produced a config, discarding any
parse errors collected on the way. -/
def parseRateLimitConfig (ing : Ingress) : Option RateLimitConfig × List FieldError :=
  let anns := ing.anns
  let st :=
    rlStepZone anns (rlStepBurst anns (rlStepConn anns (rlStepRPM anns
      (rlStepRPS anns (RateLimitConfig.zero, [], false)))))
  if st.2.2 then (some st.1, st.2.1) else (none, [])

/-- `rateLimitFeature` (part_002): per ingress, parse the config (on parse
errors, record them and skip the object), find the target route via
`findHTTPRouteKey`, silently skip when none exists, otherwise merge the
rate values into the lazily allocated provider-specific route record.
The info notification to the external sink is not modelled. -/
def rateLimitFeature (ingresses : List Ingress) (ir : IR) : IR × List FieldError :=
  ingresses.foldl
    (fun acc ing =>
      let pr := parseRateLimitConfig ing
      if pr.2 ≠ [] then (acc.1, acc.2 ++ pr.2)
      else
        match pr.1 with
        | none => acc
        | some config =>
          let key : NamespacedName := ⟨ing.ns, ing.name⟩
          let routeKey := findHTTPRouteKey acc.1 key
          if routeKey = NamespacedName.zero then acc
          else
            let routeCtx := (mapGet acc.1.httpRoutes routeKey).getD HTTPRouteContext.zero
            let nginxIR := (routeCtx.providerSpecificIR.ingressNginx).getD IngressNginxHTTPRouteIR.zero
            let nginxIR := if 0 < config.rps then { nginxIR with rateLimitRPS := config.rps } else nginxIR
            let nginxIR := if 0 < config.burst then { nginxIR with rateLimitBurst := config.burst } else nginxIR
            let routeCtx := { routeCtx with providerSpecificIR := ⟨some nginxIR⟩ }
            ({ acc.1 with httpRoutes := mapSet acc.1.httpRoutes routeKey routeCtx }, acc.2))
    (ir, [])

/-! ## Client certificate authentication (client_cert_auth.go). -/

def authTLSSecretAnn : GoString := "nginx.ingress.kubernetes.io/auth-tls-secret".toList

def authTLSVerifyClientAnn : GoString := "nginx.ingress.kubernetes.io/auth-tls-verify-client".toList

def authTLSVerifyDepthAnn : GoString := "nginx.ingress.kubernetes.io/auth-tls-verify-depth".toList

def authTLSErrorPageAnn : GoString := "nginx.ingress.kubernetes.io/auth-tls-error-page".toList

def authTLSPassCertToUpstreamAnn : GoString :=
  "nginx.ingress.kubernetes.io/auth-tls-pass-certificate-to-upstream".toList

/-- `parseClientCertAuthConfig` (client_cert_auth.go): the `auth-tls-secret`
annotation anchors the record; the verify mode is validated against the
closed enum {on, off, optional, optional_no_ca}, with an out-of-enum value
recording an error and falling back to the default "on"; the verify depth
defaults to 1 when absent and records an error on a non-numeral (leaving
the Go zero value 0). -/
def parseClientCertAuthConfig (ing : Ingress) : Option ClientCertAuthConfig × List FieldError :=
  let anns := ing.anns
  let secret := annGet anns authTLSSecretAnn
  if secret = [] then (none, [])
  else
    let verifyRaw := annGet anns authTLSVerifyClientAnn
    let verifyClient := if verifyRaw = [] then "on".toList else verifyRaw
    let vc : GoString × List FieldError :=
      if verifyClient = "on".toList ∨ verifyClient = "off".toList ∨
         verifyClient = "optional".toList ∨ verifyClient = "optional_no_ca".toList then
        (verifyClient, [])
      else
        ("on".toList,
         [annErr authTLSVerifyClientAnn verifyClient
            ("invalid verify-client value, must be one of: on, off, optional, optional_no_ca".toList)])
    let depthStr := annGet anns authTLSVerifyDepthAnn
    let depth : Int × List FieldError :=
      if depthStr ≠ [] then
        match goAtoi depthStr with
        | none => (0, [annErr authTLSVerifyDepthAnn depthStr ("invalid verify-depth value".toList)])
        | some val => (val, [])
      else (1, [])
    let passCertStr := annGet anns authTLSPassCertToUpstreamAnn
    let passCert := if passCertStr ≠ [] then decide (passCertStr = "true".toList) else false
    (some
      { secret := secret
      , verifyClient := vc.1
      , verifyDepth := depth.1
      , errorPage := annGet anns authTLSErrorPageAnn
      , passCertToUpstream := passCert },
     vc.2 ++ depth.2)

/-- `clientCertAuthFeature` (client_cert_auth.go): on parse errors the
errors are recorded and the object is skipped (so nothing is written into
the IR for it); otherwise the record replaces the `clientCertAuth` field of
the first route in the ingress's namespace.  The info notification to the
external sink is not modelled. -/
def clientCertAuthFeature (ingresses : List Ingress) (ir : IR) : IR × List FieldError :=
  ingresses.foldl
    (fun acc ing =>
      let pr := parseClientCertAuthConfig ing
      if pr.2 ≠ [] then (acc.1, acc.2 ++ pr.2)
      else
        match pr.1 with
        | none => acc
        | some config =>
          let key : NamespacedName := ⟨ing.ns, ing.name⟩
          let routeKey := findHTTPRouteKey acc.1 key
          if routeKey = NamespacedName.zero then acc
          else
            let routeCtx := (mapGet acc.1.httpRoutes routeKey).getD HTTPRouteContext.zero
            let nginxIR := (routeCtx.providerSpecificIR.ingressNginx).getD IngressNginxHTTPRouteIR.zero
            let nginxIR := { nginxIR with clientCertAuth := some config }
            let routeCtx := { routeCtx with providerSpecificIR := ⟨some nginxIR⟩ }
            ({ acc.1 with httpRoutes := mapSet acc.1.httpRoutes routeKey routeCtx }, acc.2))
    (ir, [])

/-! ## External authentication (part_004). -/

def authURLAnn : GoString := "nginx.ingress.kubernetes.io/auth-url".toList

def authMethodAnn : GoString := "nginx.ingress.kubernetes.io/auth-method".toList

def authSigninAnn : GoString := "nginx.ingress.kubernetes.io/auth-signin".toList

def authResponseHeadersAnn : GoString := "nginx.ingress.kubernetes.io/auth-response-headers".toList

def authRequestRedirectAnn : GoString := "nginx.ingress.kubernetes.io/auth-request-redirect".toList

def authCacheKeyAnn : GoString := "nginx.ingress.kubernetes.io/auth-cache-key".toList

def authCacheDurationAnn : GoString := "nginx.ingress.kubernetes.io/auth-cache-duration".toList

/-- Go `strings.Split(s, ",")`. -/
def splitOnComma : GoString → List GoString
  | [] => [[]]
  | c :: rest =>
    match splitOnComma rest with
    | [] => []
    | h :: t => if c = ',' then [] :: h :: t else (c :: h) :: t

/-- `parseExternalAuthConfig` (part_004): the `auth-url` annotation anchors
the record; the method defaults to GET and is upper-cased; the response
headers are comma-split and trimmed.  The auth-snippet warning notification
to the external sink is not modelled. -/
def parseExternalAuthConfig (ing : Ingress) : Option ExternalAuthConfig :=
  let anns := ing.anns
  let authURL := annGet anns authURLAnn
  if authURL = [] then none
  else
    let method :=
      let m := annGet anns authMethodAnn
      if m = [] then "GET".toList else m
    let headers := annGet anns authResponseHeadersAnn
    some
      { url := authURL
      , method := goToUpper method
      , signinURL := annGet anns authSigninAnn
      , responseHeaders := if headers ≠ [] then (splitOnComma headers).map goTrimSpace else []
      , requestRedirect := annGet anns authRequestRedirectAnn
      , cacheKey := annGet anns authCacheKeyAnn
      , cacheDuration := annGet anns authCacheDurationAnn }

/-- `externalAuthFeature` (part_004): same route-targeting skeleton as the
rate-limit pass; the record replaces the `externalAuth` field of the first
route in the ingress's namespace.  The returned error list is always empty
in the source. -/
def externalAuthFeature (ingresses : List Ingress) (ir : IR) : IR × List FieldError :=
  ingresses.foldl
    (fun acc ing =>
      match parseExternalAuthConfig ing with
      | none => acc
      | some config =>
        let key : NamespacedName := ⟨ing.ns, ing.name⟩
        let routeKey := findHTTPRouteKey acc.1 key
        if routeKey = NamespacedName.zero then acc
        else
          let routeCtx := (mapGet acc.1.httpRoutes routeKey).getD HTTPRouteContext.zero
          let nginxIR := (routeCtx.providerSpecificIR.ingressNginx).getD IngressNginxHTTPRouteIR.zero
          let nginxIR := { nginxIR with externalAuth := some config }
          let routeCtx := { routeCtx with providerSpecificIR := ⟨some nginxIR⟩ }
          ({ acc.1 with httpRoutes := mapSet acc.1.httpRoutes routeKey routeCtx }, acc.2))
    (ir, [])

/-! ## Proxy settings (proxy_settings.go). -/

def proxyBodySizeAnn : GoString := "nginx.ingress.kubernetes.io/proxy-body-size".toList

def proxyBufferingAnn : GoString := "nginx.ingress.kubernetes.io/proxy-buffering".toList

def proxyRequestBufferingAnn : GoString := "nginx.ingress.kubernetes.io/proxy-request-buffering".toList

def loadBalanceAnn : GoString := "nginx.ingress.kubernetes.io/load-balance".toList

/-- `proxySettingsConfig` (proxy_settings.go). -/
structure ProxySettingsConfig where
  proxyBodySize : GoString
  proxyBuffering : Option Bool
  proxyRequestBuffering : Option Bool
deriving DecidableEq, Repr

/-- `parseOnOff` (proxy_settings.go). -/
def parseOnOff (value : GoString) : Bool :=
  let v := goToLower (goTrimSpace value)
  decide (v = "on".toList ∨ v = "true".toList ∨ v = "1".toList)

/-- `parseProxySettings` (proxy_settings.go). -/
def parseProxySettings (ing : Ingress) : Option ProxySettingsConfig :=
  let anns := ing.anns
  let bodySize := annGet anns proxyBodySizeAnn
  let buffering := annGet anns proxyBufferingAnn
  let reqBuffering := annGet anns proxyRequestBufferingAnn
  let config : ProxySettingsConfig :=
    { proxyBodySize := bodySize
    , proxyBuffering := if buffering ≠ [] then some (parseOnOff buffering) else none
    , proxyRequestBuffering := if reqBuffering ≠ [] then some (parseOnOff reqBuffering) else none }
  if bodySize ≠ [] ∨ buffering ≠ [] ∨ reqBuffering ≠ [] then some config else none

/-- The per-ingress body of `proxySettingsFeature`'s first loop: merge the
parsed proxy settings into the first route of the ingress's namespace,
silently skipping when the namespace holds no route. -/
def psRouteStep (irAcc : IR) (ing : Ingress) : IR :=
  match parseProxySettings ing with
  | none => irAcc
  | some config =>
    let key : NamespacedName := ⟨ing.ns, ing.name⟩
    let routeKey := findHTTPRouteKey irAcc key
    if routeKey = NamespacedName.zero then irAcc
    else
      let routeCtx := (mapGet irAcc.httpRoutes routeKey).getD HTTPRouteContext.zero
      let nginxIR := (routeCtx.providerSpecificIR.ingressNginx).getD IngressNginxHTTPRouteIR.zero
      let nginxIR :=
        if config.proxyBodySize ≠ [] then { nginxIR with proxyBodySize := config.proxyBodySize }
        else nginxIR
      let nginxIR :=
        match config.proxyBuffering with
        | some b => { nginxIR with proxyBuffering := some b }
        | none => nginxIR
      let nginxIR :=
        match config.proxyRequestBuffering with
        | some b => { nginxIR with proxyRequestBuffering := some b }
        | none => nginxIR
      let routeCtx := { routeCtx with providerSpecificIR := ⟨some nginxIR⟩ }
      { irAcc with httpRoutes := mapSet irAcc.httpRoutes routeKey routeCtx }

/-- The per-path body of `proxySettingsFeature`'s load-balance loop: write
the algorithm into the referenced service context when it exists. -/
def lbStepPath (nsp lbAlgorithm : GoString) (ir3 : IR) (path : HTTPIngressPath) : IR :=
  match path.backend.service with
  | none => ir3
  | some svc =>
    let svcKey : NamespacedName := ⟨nsp, svc.name⟩
    match mapGet ir3.services svcKey with
    | some svcCtx =>
      let sIR := (svcCtx.ingressNginx).getD IngressNginxServiceIR.zero
      { ir3 with
        services := mapSet ir3.services svcKey ⟨some { sIR with loadBalanceAlgorithm := lbAlgorithm }⟩ }
    | none => ir3

/-- The per-rule body of `proxySettingsFeature`'s load-balance loop. -/
def lbStepRule (nsp lbAlgorithm : GoString) (ir2 : IR) (rule : IngressRule) : IR :=
  match rule.http with
  | none => ir2
  | some paths => paths.foldl (lbStepPath nsp lbAlgorithm) ir2

/-- The per-ingress body of `proxySettingsFeature`'s load-balance loop. -/
def lbStepIngress (irAcc : IR) (ing : Ingress) : IR :=
  let lbAlgorithm := annGet ing.anns loadBalanceAnn
  if lbAlgorithm = [] then irAcc
  else ing.spec.rules.foldl (lbStepRule ing.ns lbAlgorithm) irAcc

/-- `proxySettingsFeature` (proxy_settings.go): the first loop merges the
parsed proxy settings into the first route of the ingress's namespace
(silently skipping when none exists); the second loop writes the
load-balance algorithm into every existing service context referenced by
the ingress's rules.  Info notifications are not modelled; the returned
error list is always empty in the source. -/
def proxySettingsFeature (ingresses : List Ingress) (ir : IR) : IR × List FieldError :=
  (ingresses.foldl lbStepIngress (ingresses.foldl psRouteStep ir), [])

/-! ## Backend protocol / backend TLS policies (part_000). -/

def backendProtocolAnn : GoString := "nginx.ingress.kubernetes.io/backend-protocol".toList

def proxySSLSecretAnn : GoString := "nginx.ingress.kubernetes.io/proxy-ssl-secret".toList

def proxySSLVerifyAnn : GoString := "nginx.ingress.kubernetes.io/proxy-ssl-verify".toList

def proxySSLNameAnn : GoString := "nginx.ingress.kubernetes.io/proxy-ssl-name".toList

def proxySSLProtocolsAnn : GoString := "nginx.ingress.kubernetes.io/proxy-ssl-protocols".toList

def proxySSLCiphersAnn : GoString := "nginx.ingress.kubernetes.io/proxy-ssl-ciphers".toList

/-- `backendTLSConfig` (part_000).  The Go field `namespace` is called
`bNamespace` here. -/
structure BackendTLSConfig where
  protocol : GoString
  sslSecret : GoString
  sslVerify : Bool
  sslName : GoString
  sslProtocols : GoString
  sslCiphers : GoString
  backendName : GoString
  backendPort : Int
  bNamespace : GoString
deriving DecidableEq, Repr

/-- `parseBackendTLSConfig` (part_000): nil unless the (defaulted) protocol
is HTTPS/GRPCS or a `proxy-ssl-secret` is present; `ssl-verify` is on for
"on"/"true" only. -/
def parseBackendTLSConfig (ingress : Ingress) : Option BackendTLSConfig :=
  let protocolRaw := annGet ingress.anns backendProtocolAnn
  let protocol := if protocolRaw = [] then "HTTP".toList else protocolRaw
  if (protocol ≠ "HTTPS".toList ∧ protocol ≠ "GRPCS".toList) ∧
     annGet ingress.anns proxySSLSecretAnn = [] then none
  else
    let verifyStr := annGet ingress.anns proxySSLVerifyAnn
    some
      { protocol := goToUpper protocol
      , sslSecret := annGet ingress.anns proxySSLSecretAnn
      , sslVerify := decide (verifyStr = "on".toList ∨ verifyStr = "true".toList)
      , sslName := annGet ingress.anns proxySSLNameAnn
      , sslProtocols := annGet ingress.anns proxySSLProtocolsAnn
      , sslCiphers := annGet ingress.anns proxySSLCiphersAnn
      , backendName := []
      , backendPort := 0
      , bNamespace := ingress.ns }

/-- `backendService` (part_000). -/
structure BackendService where
  serviceName : GoString
  servicePort : Int
deriving DecidableEq, Repr

/-- The `"<name>:<port>"` de-duplication key of `extractBackendServices`. -/
def backendSeenKey (svc : IngressServiceBackend) : GoString :=
  svc.name ++ ':' :: intToStr svc.port.number

/-- `extractBackendServices` (part_000): default backend first, then every
rule backend, de-duplicated by service `name:port`. -/
def extractBackendServices (ingress : Ingress) : List BackendService :=
  let st0 : List BackendService × List GoString :=
    match ingress.spec.defaultBackend with
    | some b =>
      match b.service with
      | some svc => ([⟨svc.name, svc.port.number⟩], [backendSeenKey svc])
      | none => ([], [])
    | none => ([], [])
  let stFinal :=
    ingress.spec.rules.foldl
      (fun st rule =>
        match rule.http with
        | none => st
        | some paths =>
          paths.foldl
            (fun st2 path =>
              match path.backend.service with
              | none => st2
              | some svc =>
                let key := backendSeenKey svc
                if key ∈ st2.2 then st2
                else (st2.1 ++ [⟨svc.name, svc.port.number⟩], key :: st2.2))
            st)
      st0
  stFinal.1

/-- `buildBackendTLSPolicy` (part_000): the validation hostname defaults to
the service name when no explicit SNI override (`proxy-ssl-name`) is given;
an explicit `proxy-ssl-secret` yields a CA ConfigMap reference, otherwise
the well-known system CA set is used (mutually exclusive). -/
def buildBackendTLSPolicy (name nsp serviceName : GoString) (config : Option BackendTLSConfig) :
    Option BackendTLSPolicy :=
  match config with
  | none => none
  | some config =>
    let hostname := if config.sslName = [] then serviceName else config.sslName
    some
      { name := name
      , ns := nsp
      , targetServiceName := serviceName
      , validationHostname := hostname
      , caCertConfigMap := if config.sslSecret ≠ [] then some ("ca-ame-nginx".toList) else none
      , wellKnownCACerts := if config.sslSecret ≠ [] then none else some ("System".toList) }

/-- The per-backend body of `backendProtocolFeature`'s inner loop: compute
the deterministic policy key, skip if a policy already exists under it,
otherwise build and insert the policy. -/
def bpStep (nsp : GoString) (config : BackendTLSConfig) (ir2 : IR) (backend : BackendService) : IR :=
  let policyName := backend.serviceName ++ "-backend-tls".toList
  let policyKey : NamespacedName := ⟨nsp, policyName⟩
  if mapHasKey ir2.backendTLSPolicies policyKey then ir2
  else
    match buildBackendTLSPolicy policyName nsp backend.serviceName (some config) with
    | some policy =>
      { ir2 with backendTLSPolicies := mapSet ir2.backendTLSPolicies policyKey policy }
    | none => ir2

/-- `backendProtocolFeature` (part_000): one BackendTLSPolicy per distinct
backend service, keyed `(namespace, serviceName + "-backend-tls")`; an
existing policy under the key is skipped, never overwritten.  The returned
error list is always empty in the source (an empty backend list skips the
ingress, which the fold does vacuously); info notifications are not
modelled. -/
def backendProtocolFeature (ingresses : List Ingress) (ir : IR) : IR :=
  ingresses.foldl
    (fun irAcc ingress =>
      match parseBackendTLSConfig ingress with
      | none => irAcc
      | some config => (extractBackendServices ingress).foldl (bpStep ingress.ns config) irAcc)
    ir

/-! ## App-level warnings / blocker detection (app_level_warnings.go).
The multi-line guidance texts attached to each annotation key are
abbreviated to their heading line here; the pass only tests key presence
and chooses a severity, and no claim concerns the message bodies. -/

def serverSnippetAnnKey : GoString := "nginx.ingress.kubernetes.io/server-snippet".toList

def configurationSnippetAnnKey : GoString := "nginx.ingress.kubernetes.io/configuration-snippet".toList

def useRegexAnnKey : GoString := "nginx.ingress.kubernetes.io/use-regex".toList

def rewriteTargetAnnKey : GoString := "nginx.ingress.kubernetes.io/rewrite-target".toList

/-- Guidance text for `server-snippet` (abbreviated). -/
def serverSnippetMsg : GoString := "SERVER-SNIPPET REQUIRES APP CHANGES".toList

/-- Guidance text for `configuration-snippet` (abbreviated). -/
def configurationSnippetMsg : GoString := "CONFIGURATION-SNIPPET REQUIRES APP CHANGES".toList

/-- Guidance text for `use-regex` (abbreviated). -/
def useRegexMsg : GoString := "REGEX PATH MATCHING NOT GA IN GATEWAY API".toList

/-- Guidance text for `rewrite-target` (abbreviated). -/
def rewriteTargetMsg : GoString := "REWRITE-TARGET WITH CAPTURE GROUPS REQUIRES APP CHANGES".toList

/-- `appLevelAnnotations` (the map of annotations that cannot be
translated), in source order; list order models Go map iteration order. -/
def appLevelAnnList : List (GoString × GoString) :=
  [ (serverSnippetAnnKey, serverSnippetMsg)
  , (configurationSnippetAnnKey, configurationSnippetMsg)
  , (useRegexAnnKey, useRegexMsg)
  , (rewriteTargetAnnKey, rewriteTargetMsg) ]

def authUrlWarnMsg : GoString := "EXTERNAL AUTH CONFIGURATION".toList

def authTlsWarnMsg : GoString := "CLIENT CERT AUTH CONFIGURATION".toList

/-- `meshlessWarningAnnotations`, in source order. -/
def meshlessWarningAnnList : List (GoString × GoString) :=
  [ (authURLAnn, authUrlWarnMsg), (authTLSSecretAnn, authTlsWarnMsg) ]

/-- `truncateValue` (app_level_warnings.go). -/
def truncateValue (value : GoString) : GoString :=
  if 200 < value.length then value.take 200 ++ "... (truncated)".toList else value

/-- `appLevelWarningsFeature` (app_level_warnings.go): for each ingress,
every present app-level annotation key yields an error (blocking)
notification, every present meshless key an info notification, and a
`rewrite-target` value containing `$` one more error notification.  The
pass never consults the gateway mode and its returned error list is always
empty; the notifications it hands to the external sink are collected in
the returned list. -/
def appLevelWarningsFeature (ingresses : List Ingress) : List Notif :=
  ingresses.flatMap
    (fun ing =>
      let objKey : NamespacedName := ⟨ing.ns, ing.name⟩
      let blockers :=
        appLevelAnnList.filterMap
          (fun p =>
            match mapGet ing.anns p.1 with
            | some v =>
              some
                ⟨NotifType.error,
                 "MIGRATION BLOCKER - ".toList ++ p.1 ++ "\n".toList ++ goTrimSpace p.2 ++
                   "\nCurrent value: ".toList ++ truncateValue v,
                 some objKey⟩
            | none => none)
      let meshless :=
        meshlessWarningAnnList.filterMap
          (fun p =>
            match mapGet ing.anns p.1 with
            | some _ =>
              some
                ⟨NotifType.info,
                 "AUTH CONFIG GENERATED - ".toList ++ p.1 ++ "\n".toList ++ goTrimSpace p.2,
                 some objKey⟩
            | none => none)
      let rewriteVal := annGet ing.anns rewriteTargetAnnKey
      let rewriteNotifs : List Notif :=
        if rewriteVal ≠ [] ∧ '$' ∈ rewriteVal then
          [⟨NotifType.error,
            "MIGRATION BLOCKER - rewrite-target with capture groups\n".toList ++
              goTrimSpace rewriteTargetMsg ++ "\nCurrent value: ".toList ++ rewriteVal,
            some objKey⟩]
        else []
      blockers ++ meshless ++ rewriteNotifs)

/-! ## Gateway deployment configuration (part_005). -/

/-- `GatewayConfig` (part_005).  The Go field `Namespace` is called `ns`. -/
structure GatewayConfig where
  mode : GoString
  ns : GoString
  name : GoString
deriving DecidableEq, Repr

/-- `GatewayConfig.IsCentralized`. -/
def GatewayConfig.isCentralized (c : GatewayConfig) : Bool :=
  decide (c.mode = "centralized".toList)

/-- `GatewayConfig.GetGatewayRef`: in centralized mode the configured
namespace/name; otherwise the dedicated `<serviceNamespace>-gateway`
namespace (used as both namespace and name). -/
def GatewayConfig.getGatewayRef (c : GatewayConfig) (serviceNamespace : GoString) :
    GoString × GoString :=
  if c.isCentralized then (c.ns, c.name)
  else
    let gatewayNS := serviceNamespace ++ "-gateway".toList
    (gatewayNS, gatewayNS)

/-! ## SSL redirect materialization (ssl_redirect.go). -/

def sslRedirectAnnKey : GoString := "nginx.ingress.kubernetes.io/ssl-redirect".toList

def forceSSLRedirectAnnKey : GoString := "nginx.ingress.kubernetes.io/force-ssl-redirect".toList

/-- `buildHTTPListenerName` (ssl_redirect.go): dots become dashes and the
`-http` suffix is appended (the character-by-character replacement loop of
the source amounts to replacing every dot). -/
def buildHTTPListenerName (hostname : GoString) : GoString :=
  hostname.map (fun c => if c = '.' then '-' else c) ++ "-http".toList

/-- `buildSSLRedirectFilter` (ssl_redirect.go): a RequestRedirect filter
upgrading the scheme to https with permanent-redirect status 301. -/
def buildSSLRedirectFilter : HTTPRouteFilter :=
  { ftype := "RequestRedirect".toList
  , requestRedirect := some { scheme := some ("https".toList), statusCode := some 301 } }

/-- The redirect HTTPRoute object built inside `buildSSLRedirectRoutes`:
managed-by labels, source annotations, a single parent reference pinned by
`SectionName` to the HTTP listener, the one hostname, and the single
redirect-filter rule. -/
def redirectRouteObj (redirectRouteKey : NamespacedName)
    (gwNamespace gwName httpListenerName hostname : GoString) : HTTPRoute :=
  { ns := redirectRouteKey.ns
  , name := redirectRouteKey.name
  , labels :=
      [ ("app.kubernetes.io/managed-by".toList, "ingress2gateway".toList)
      , ("gateway-api-migration".toList, "true".toList) ]
  , anns :=
      [ ("ingress2gateway.kubernetes.io/source".toList, "nginx.ingress.kubernetes.io/ssl-redirect".toList)
      , ("ingress2gateway.kubernetes.io/description".toList, "HTTP to HTTPS redirect route".toList) ]
  , parentRefs := [⟨gwName, some gwNamespace, some httpListenerName⟩]
  , hostnames := [hostname]
  , rules := [⟨[buildSSLRedirectFilter]⟩] }

/-- The per-hostname body of `buildSSLRedirectRoutes`: compute the
redirect-route key `(namespace, name + "-redirect")` — note it does not
depend on the hostname — skip if a route already exists under it,
otherwise insert the redirect route for the current hostname. -/
def sslRedirectHostStep (gwRef : GoString × GoString) (routeKey : NamespacedName)
    (acc2 : GatewayResources) (hostname : GoString) : GatewayResources :=
  let httpListenerName := buildHTTPListenerName hostname
  let redirectRouteKey : NamespacedName := ⟨routeKey.ns, routeKey.name ++ "-redirect".toList⟩
  if mapHasKey acc2.httpRoutes redirectRouteKey then acc2
  else
    { acc2 with
      httpRoutes :=
        mapSet acc2.httpRoutes redirectRouteKey
          (redirectRouteObj redirectRouteKey gwRef.1 gwRef.2 httpListenerName hostname) }

/-- `buildSSLRedirectRoutes` (ssl_redirect.go): for every IR route whose
provider record has the SSL-redirect flag, iterate its hostnames with
`sslRedirectHostStep`. -/
def buildSSLRedirectRoutes (ir : IR) (gr : GatewayResources) (gwConfig : GatewayConfig) :
    GatewayResources :=
  ir.httpRoutes.foldl
    (fun acc p =>
      match p.2.providerSpecificIR.ingressNginx with
      | none => acc
      | some nginxIR =>
        if nginxIR.sslRedirect then
          let route := p.2.httpRoute
          let gwRef := gwConfig.getGatewayRef p.1.ns
          route.hostnames.foldl (sslRedirectHostStep gwRef p.1) acc
        else acc)
    gr

/-! ## Topology transform (part_005: `transformGatewaysForMode`,
`updateHTTPRouteParentRefs`). -/

/-- The namespace against which a parent reference is matched: its own
`Namespace` field if set, else the route's namespace. -/
def parentNsOf (routeNs : GoString) (ref : ParentReference) : GoString :=
  match ref.pNamespace with
  | some n => n
  | none => routeNs

/-- One parent reference rewrite step of `updateHTTPRouteParentRefs`:
references are compared structurally by namespace+name against the old
gateway key and redirected to the new one. -/
def rewriteParentRef (routeNs : GoString) (oldGw newGw : NamespacedName)
    (ref : ParentReference) : ParentReference :=
  if parentNsOf routeNs ref = oldGw.ns ∧ ref.name = oldGw.name then
    { ref with pNamespace := some newGw.ns, name := newGw.name }
  else ref

/-- `updateHTTPRouteParentRefs` (part_005): rewrite, on every route, every
matching parent reference from the old gateway key to the new one.  The
source mutates the slice in place and re-stores the route only when a
reference changed, which is extensionally this per-route map. -/
def updateHTTPRouteParentRefs (routes : List (NamespacedName × HTTPRoute))
    (oldGw newGw : NamespacedName) : List (NamespacedName × HTTPRoute) :=
  routes.map
    (fun p => (p.1, { p.2 with parentRefs := p.2.parentRefs.map (rewriteParentRef p.2.ns oldGw newGw) }))

/-- First-appearance de-duplication (order stand-in for Go map iteration). -/
def dedupFirstAux (seen : List GoString) : List GoString → List GoString
  | [] => []
  | x :: rest =>
    if x ∈ seen then dedupFirstAux seen rest
    else x :: dedupFirstAux (x :: seen) rest

/-- The distinct route namespaces, in first-appearance order: embedding of
`for namespace := range namespaceRoutes` of part_005, where
`namespaceRoutes` groups route keys by namespace (its route lists are never
read afterwards, only its key set). -/
def namespaceKeysInOrder (routes : List (NamespacedName × HTTPRoute)) : List GoString :=
  dedupFirstAux [] (routes.map (fun p => p.1.ns))

/-- The inner gateway loop of the per-namespace branch: the first generated
gateway becomes the template (a deep copy), every further gateway's
listeners are appended to it, and — crucially — `oldToNewGateway[oldKey]`
is assigned `newKey` for every generated gateway on every namespace
iteration. -/
def perNamespaceStep (gateways : List (NamespacedName × Gateway)) (newKey : NamespacedName)
    (oldToNew : List (NamespacedName × NamespacedName)) :
    Option Gateway × List (NamespacedName × NamespacedName) :=
  gateways.foldl
    (fun st q =>
      match st.1 with
      | none => (some q.2, mapSet st.2 q.1 newKey)
      | some tg => (some { tg with listeners := tg.listeners ++ q.2.listeners }, mapSet st.2 q.1 newKey))
    (none, oldToNew)

/-- `transformGatewaysForMode` (part_005).  Centralized branch: every
generated gateway is re-keyed to the configured namespace/name (one final
map entry), its class forced to `istio`, and route parent references are
rewritten per old key.  Per-namespace branch: for each distinct route
namespace, a gateway named `<namespace>-gateway` is synthesized from the
merged listeners of all generated gateways, and afterwards every entry of
`oldToNewGateway` — each old key now mapping to the last namespace
iterated — drives a parent-reference rewrite. -/
def transformGatewaysForMode (cfg : GatewayConfig) (gr : GatewayResources) : GatewayResources :=
  if cfg.mode = "centralized".toList then
    let newKey : NamespacedName := ⟨cfg.ns, cfg.name⟩
    let res :=
      gr.gateways.foldl
        (fun (acc : List (NamespacedName × Gateway) × List (NamespacedName × HTTPRoute)) p =>
          let gw' := { p.2 with ns := cfg.ns, name := cfg.name, gatewayClassName := "istio".toList }
          (mapSet acc.1 newKey gw', updateHTTPRouteParentRefs acc.2 p.1 newKey))
        ([], gr.httpRoutes)
    { gateways := res.1, httpRoutes := res.2 }
  else
    let nsOrder := namespaceKeysInOrder gr.httpRoutes
    let built :=
      nsOrder.foldl
        (fun (acc : List (NamespacedName × Gateway) × List (NamespacedName × NamespacedName)) nsp =>
          let gwRef := cfg.getGatewayRef nsp
          let newKey : NamespacedName := ⟨gwRef.1, gwRef.2⟩
          let inner := perNamespaceStep gr.gateways newKey acc.2
          match inner.1 with
          | some tg =>
            let tg' := { tg with ns := gwRef.1, name := gwRef.2, gatewayClassName := "istio".toList }
            (mapSet acc.1 newKey tg', inner.2)
          | none => (acc.1, inner.2))
        ([], [])
    let routes := built.2.foldl (fun rs q => updateHTTPRouteParentRefs rs q.1 q.2) gr.httpRoutes
    { gateways := built.1, httpRoutes := routes }

/-! ## Derived notions used by the theorem statements. -/

/-- The gateway key a parent reference points at (structural
namespace+name comparison, as used by `updateHTTPRouteParentRefs`). -/
def refTarget (routeNs : GoString) (ref : ParentReference) : NamespacedName :=
  ⟨parentNsOf routeNs ref, ref.name⟩

/-- A parent reference redirected to the centralized gateway (namespace and
name replaced, section name kept). -/
def centralizedRef (cfg : GatewayConfig) (ref : ParentReference) : ParentReference :=
  { ref with pNamespace := some cfg.ns, name := cfg.name }

/-- Sequential application of `rewriteParentRef` for a list of old gateway
keys (the net effect of the centralized branch on one parent reference). -/
def foldRewrite (routeNs : GoString) (ks : List NamespacedName) (newGw : NamespacedName)
    (ref : ParentReference) : ParentReference :=
  ks.foldl (fun r k => rewriteParentRef routeNs k newGw r) ref

/-- No canonical route of the IR lies in namespace `nsp`. -/
def noRouteInNs (ir : IR) (nsp : GoString) : Prop :=
  ∀ p ∈ ir.httpRoutes, p.1.ns ≠ nsp

/-- The config produced by the limit-rpm block from RPM value `v` on a
fresh state (used to state the RPM→RPS conversion claim). -/
def rpmConvConfig (v : Int) : RateLimitConfig :=
  { RateLimitConfig.zero with rpm := v, rps := if Int.tdiv v 60 = 0 ∧ 0 < v then 1 else Int.tdiv v 60 }

/-- Decimal digit, by enumeration (used in hypotheses about annotation
values so that character-class facts reduce by case analysis). -/
def isDecDigit (c : Char) : Prop :=
  c = '0' ∨ c = '1' ∨ c = '2' ∨ c = '3' ∨ c = '4' ∨
  c = '5' ∨ c = '6' ∨ c = '7' ∨ c = '8' ∨ c = '9'

instance (c : Char) : Decidable (isDecDigit c) := by
  unfold isDecDigit; infer_instance

/-! ## Concrete fixtures for counterexamples, failing inputs and witnesses. -/

/-- A per-namespace (per-tenant) gateway configuration. -/
def perNsConfig : GatewayConfig :=
  ⟨"per-namespace".toList, "istio-system".toList, "platform-gateway".toList⟩

/-- A centralized gateway configuration (the defaults of part_005). -/
def centralConfig : GatewayConfig :=
  ⟨"centralized".toList, "istio-system".toList, "platform-gateway".toList⟩

/-- One generated front-end gateway under key `x/gw`. -/
def c1Gateway : Gateway :=
  ⟨"x".toList, "gw".toList, "nginx".toList, [⟨"l1".toList, "HTTP".toList, 80⟩]⟩

/-- A route in tenant namespace `a` referencing the generated gateway. -/
def c1RouteA : HTTPRoute :=
  ⟨"a".toList, "ra".toList, [], [], [⟨"gw".toList, some ("x".toList), none⟩], [], []⟩

/-- A route in tenant namespace `b` referencing the generated gateway. -/
def c1RouteB : HTTPRoute :=
  ⟨"b".toList, "rb".toList, [], [], [⟨"gw".toList, some ("x".toList), none⟩], [], []⟩

/-- Materialized resources with one generated gateway and two routes lying
in the two different tenant namespaces `a` and `b`. -/
def c1Resources : GatewayResources :=
  ⟨[(⟨"x".toList, "gw".toList⟩, c1Gateway)],
   [(⟨"a".toList, "ra".toList⟩, c1RouteA), (⟨"b".toList, "rb".toList⟩, c1RouteB)]⟩

/-- Same shape as `c1Resources`, used by the centralized-mode claim. -/
def c2Resources : GatewayResources :=
  ⟨[(⟨"x".toList, "gw".toList⟩, c1Gateway)],
   [(⟨"a".toList, "ra".toList⟩, c1RouteA), (⟨"b".toList, "rb".toList⟩, c1RouteB)]⟩

/-- An IR holding a single route flagged for SSL redirect with two
hostnames. -/
def c3FlaggedIR : IR :=
  ⟨[(⟨"ns".toList, "r1".toList⟩,
     ⟨⟨"ns".toList, "r1".toList, [], [], [], ["a.com".toList, "b.com".toList], []⟩,
      ⟨some { IngressNginxHTTPRouteIR.zero with sslRedirect := true }⟩⟩)],
   [], []⟩

/-- An ingress named `ing2` carrying only an explicit RPS annotation; under
the Route Resolver's grouping it contributes to the canonical route
`ns/ing2-route` (second in the namespace), not to `ns/alpha`. -/
def c4Ingress : Ingress :=
  ⟨"ns".toList, "ing2".toList, [(limitRPSAnn, "7".toList)], ⟨none, []⟩⟩

/-- An IR with two canonical routes in namespace `ns`: `alpha` (first in
iteration order) and `ing2-route` (the one `c4Ingress` contributes to). -/
def c4TwoRouteIR : IR :=
  ⟨[(⟨"ns".toList, "alpha".toList⟩, HTTPRouteContext.zero),
    (⟨"ns".toList, "ing2-route".toList⟩, HTTPRouteContext.zero)],
   [], []⟩

/-- An ingress carrying only a `limit-rpm` annotation. -/
def rpmIngress (v : GoString) : Ingress :=
  ⟨"tenant-a".toList, "app".toList, [(limitRPMAnn, v)], ⟨none, []⟩⟩

/-- An ingress whose only rate-limit source is a zone descriptor in which
both patterns match: the first match in the string is `rate=100r/s`, the
later one is `rate=120r/m`. -/
def c6ZoneIngress : Ingress :=
  ⟨"tenant-a".toList, "app".toList,
   [(limitReqZoneAnn, "$binary_remote_addr zone=rl:10m rate=100r/s rate=120r/m".toList)],
   ⟨none, []⟩⟩

/-- An ingress with a CA secret and an out-of-enum verify-mode value. -/
def c7Ingress : Ingress :=
  ⟨"ns".toList, "ing".toList,
   [(authTLSSecretAnn, "ca-secret".toList), (authTLSVerifyClientAnn, "bogus".toList)],
   ⟨none, []⟩⟩

/-- An IR with one canonical route in namespace `ns`. -/
def c7OneRouteIR : IR :=
  ⟨[(⟨"ns".toList, "r1".toList⟩, HTTPRouteContext.zero)], [], []⟩

/-- An HTTPS-backend ingress referencing service `svc`. -/
def c8Ingress (nm : GoString) : Ingress :=
  ⟨"ns".toList, nm, [(backendProtocolAnn, "HTTPS".toList)],
   ⟨none, [⟨"example.com".toList, some [⟨"/".toList, ⟨some ⟨"svc".toList, ⟨443⟩⟩⟩⟩]⟩]⟩⟩

/-- An ingress carrying a server-snippet annotation (and another, benign
annotation). -/
def c9Ingress : Ingress :=
  ⟨"ns".toList, "ing".toList,
   [(serverSnippetAnnKey, "if ($host) \x7b return 404; \x7d".toList),
    (sslRedirectAnnKey, "true".toList)],
   ⟨none, []⟩⟩

/-! # Helper lemmas -/

theorem mapGet_mapSet_self {κ α : Type} [DecidableEq κ] (m : List (κ × α)) (k : κ) (v : α) :
    mapGet (mapSet m k v) k = some v := by
  induction m with
  | nil => simp [mapGet, mapSet]
  | cons p rest ih =>
    by_cases h : p.1 = k
    · simp [mapSet, mapGet, h]
    · simp [mapSet, mapGet, h, ih]

theorem mapGet_mapSet_ne {κ α : Type} [DecidableEq κ] (m : List (κ × α)) (k k' : κ) (v : α)
    (h : k' ≠ k) : mapGet (mapSet m k v) k' = mapGet m k' := by
  induction m with
  | nil => simp [mapGet, mapSet, Ne.symm h]
  | cons p rest ih =>
    by_cases hp : p.1 = k
    · subst hp
      simp [mapSet, mapGet, Ne.symm h]
    · simp only [mapSet, hp, if_false, mapGet]
      split
      · rfl
      · exact ih

theorem mapCountKey_of_get_none {κ α : Type} [DecidableEq κ] (m : List (κ × α)) (k : κ)
    (h : mapGet m k = none) : mapCountKey m k = 0 := by
  induction m with
  | nil => rfl
  | cons p rest ih =>
    by_cases hp : p.1 = k
    · simp [mapGet, hp] at h
    · simp [mapGet, hp] at h
      simp [mapCountKey, hp, mapCountKey_of_get_none rest k h] at *
      exact ih h

theorem mapCountKey_mapSet_of_none {κ α : Type} [DecidableEq κ] (m : List (κ × α)) (k : κ) (v : α)
    (h : mapGet m k = none) : mapCountKey (mapSet m k v) k = 1 := by
  induction m with
  | nil => simp [mapSet, mapCountKey]
  | cons p rest ih =>
    by_cases hp : p.1 = k
    · simp [mapGet, hp] at h
    · simp [mapGet, hp] at h
      simp [mapSet, hp, mapCountKey, List.filter, ih h]
      have := ih h
      simp [mapCountKey] at this
      omega

theorem mapCountKey_mapSet_same {κ α : Type} [DecidableEq κ] (m : List (κ × α)) (k : κ) (v : α)
    (h : (mapGet m k).isSome) : mapCountKey (mapSet m k v) k = mapCountKey m k := by
  induction m with
  | nil => simp [mapGet] at h
  | cons p rest ih =>
    by_cases hp : p.1 = k
    · simp [mapSet, hp, mapCountKey, List.filter]
    · simp [mapGet, hp] at h
      simp [mapSet, hp, mapCountKey, List.filter] at *
      have := ih h
      simp [mapCountKey] at this
      omega

theorem mapCountKey_mapSet_ne {κ α : Type} [DecidableEq κ] (m : List (κ × α)) (k k' : κ) (v : α)
    (h : k' ≠ k) : mapCountKey (mapSet m k v) k' = mapCountKey m k' := by
  induction m with
  | nil => simp [mapSet, mapCountKey, List.filter, Ne.symm h]
  | cons p rest ih =>
    by_cases hp : p.1 = k
    · subst hp
      simp [mapSet, mapCountKey, List.filter, h, Ne.symm h]
    · simp only [mapSet, hp, if_false, mapCountKey, List.filter] at *
      split <;> simp_all

theorem dropWhile_eq_self_of_all (p : Char → Bool) (l : List Char)
    (h : ∀ c ∈ l, p c = false) : l.dropWhile p = l := by
  cases l with
  | nil => rfl
  | cons c rest => simp [List.dropWhile, h c (List.mem_cons_self c rest)]

theorem toLowerChar_of_decDigit (c : Char) (h : isDecDigit c) : toLowerChar c = c := by
  rcases h with h | h | h | h | h | h | h | h | h | h <;> subst h <;> decide

theorem isSpaceChar_of_decDigit (c : Char) (h : isDecDigit c) : isSpaceChar c = false := by
  rcases h with h | h | h | h | h | h | h | h | h | h <;> subst h <;> decide

theorem isDigit_of_decDigit (c : Char) (h : isDecDigit c) : c.isDigit = true := by
  rcases h with h | h | h | h | h | h | h | h | h | h <;> subst h <;> decide

theorem goTrimSpace_eq_self (s : GoString) (h : ∀ c ∈ s, isSpaceChar c = false) :
    goTrimSpace s = s := by
  unfold goTrimSpace
  rw [dropWhile_eq_self_of_all _ _ h]
  rw [dropWhile_eq_self_of_all]
  · exact s.reverse_reverse
  · intro c hc
    exact h c (List.mem_reverse.mp hc)

theorem goToLower_eq_self (s : GoString) (h : ∀ c ∈ s, toLowerChar c = c) :
    goToLower s = s := by
  induction s with
  | nil => rfl
  | cons c rest ih =>
    simp only [goToLower, List.map_cons, h c (List.mem_cons_self c rest)]
    have := ih (fun x hx => h x (List.mem_cons_of_mem c hx))
    simp only [goToLower] at this
    rw [this]

theorem wrap64_eq_self (x : Int) (h1 : 0 ≤ x) (h2 : x ≤ int64Max) : wrap64 x = x := by
  unfold wrap64
  unfold int64Max at h2
  rw [Int.emod_eq_of_lt (by omega) (by norm_num; omega)]
  omega

theorem goAtoi_digits (ds : GoString) (h1 : ds ≠ []) (h2 : ∀ c ∈ ds, isDecDigit c)
    (h3 : (digitsToNat ds : Int) ≤ int64Max) : goAtoi ds = some (digitsToNat ds) := by
  obtain ⟨c, rest, rfl⟩ := List.exists_cons_of_ne_nil h1
  have hc := h2 c (List.mem_cons_self _ _)
  have hplus : ¬(c = '+') := by
    rcases hc with h | h | h | h | h | h | h | h | h | h <;> subst h <;> decide
  have hminus : ¬(c = '-') := by
    rcases hc with h | h | h | h | h | h | h | h | h | h <;> subst h <;> decide
  have hall : (c :: rest).all (fun x => x.isDigit) = true := by
    rw [List.all_eq_true]
    intro x hx
    exact isDigit_of_decDigit x (h2 x hx)
  have hnonneg : (0 : Int) ≤ (digitsToNat (c :: rest) : Int) := Int.ofNat_nonneg _
  simp only [goAtoi, hplus, if_false, hminus, hall, if_true]
  have hne : ¬(c :: rest = ([] : GoString)) := by simp
  rw [if_neg hne, if_pos]
  · simp
  · constructor
    · unfold int64Min
      omega
    · simpa using h3

theorem parseBodySize_suffix (ds : GoString) (c : Char) (mult : Int)
    (hds : ds ≠ []) (hdig : ∀ x ∈ ds, isDecDigit x)
    (hc : c = 'k' ∧ mult = 1024 ∨ c = 'm' ∧ mult = 1024 * 1024 ∨
          c = 'g' ∧ mult = 1024 * 1024 * 1024)
    (hbound : (digitsToNat ds : Int) * (1024 * 1024 * 1024) ≤ int64Max) :
    ParseBodySize (ds ++ [c]) = Except.ok ((digitsToNat ds : Int) * mult) := by
  have hlen : 0 < ds.length := List.length_pos.mpr hds
  have hne : ¬(ds ++ [c] = ([] : GoString) ∨ ds ++ [c] = "0".toList) := by
    rintro (h | h)
    · simp at h
    · have h2 := congrArg List.length h
      simp at h2
      exact hds h2
  have hcspace : isSpaceChar c = false := by
    rcases hc with ⟨h, _⟩ | ⟨h, _⟩ | ⟨h, _⟩ <;> subst h <;> decide
  have hclower : toLowerChar c = c := by
    rcases hc with ⟨h, _⟩ | ⟨h, _⟩ | ⟨h, _⟩ <;> subst h <;> decide
  have htrim : goTrimSpace (ds ++ [c]) = ds ++ [c] := by
    apply goTrimSpace_eq_self
    intro x hx
    rcases List.mem_append.mp hx with hx | hx
    · exact isSpaceChar_of_decDigit x (hdig x hx)
    · simp at hx
      subst hx
      exact hcspace
  have hlower : goToLower (ds ++ [c]) = ds ++ [c] := by
    apply goToLower_eq_self
    intro x hx
    rcases List.mem_append.mp hx with hx | hx
    · exact toLowerChar_of_decDigit x (hdig x hx)
    · simp at hx
      subst hx
      exact hclower
  have hlast : (ds ++ [c]).getLast? = some c := List.getLast?_concat ds
  have hcases : c = 'k' ∨ c = 'm' ∨ c = 'g' := by
    rcases hc with ⟨h, _⟩ | ⟨h, _⟩ | ⟨h, _⟩
    · exact Or.inl h
    · exact Or.inr (Or.inl h)
    · exact Or.inr (Or.inr h)
  have hnu : ¬(ds ++ [c] = "unlimited".toList ∨ ds ++ [c] = "-1".toList) := by
    rintro (h | h) <;>
    · have h2 := congrArg List.getLast? h
      rw [hlast] at h2
      rcases hcases with hcc | hcc | hcc <;> subst hcc <;> revert h2 <;> decide
  have hdrop : (ds ++ [c]).dropLast = ds := List.dropLast_concat
  have hnat : (digitsToNat ds : Int) ≤ int64Max := by
    have h1 : (digitsToNat ds : Int) ≤ (digitsToNat ds : Int) * (1024 * 1024 * 1024) :=
      le_mul_of_one_le_right (Int.ofNat_nonneg _) (by norm_num)
    exact le_trans h1 hbound
  have hatoi : goAtoi ds = some (digitsToNat ds) := goAtoi_digits ds hds hdig hnat
  have hmulbound : (digitsToNat ds : Int) * mult ≤ int64Max := by
    have hmle : mult ≤ 1024 * 1024 * 1024 := by
      rcases hc with ⟨_, h⟩ | ⟨_, h⟩ | ⟨_, h⟩ <;> subst h <;> norm_num
    exact le_trans (mul_le_mul_of_nonneg_left hmle (Int.ofNat_nonneg (digitsToNat ds))) hbound
  have hmulnn : (0 : Int) ≤ (digitsToNat ds : Int) * mult := by
    apply mul_nonneg (Int.ofNat_nonneg _)
    rcases hc with ⟨_, h⟩ | ⟨_, h⟩ | ⟨_, h⟩ <;> subst h <;> norm_num
  have hwrap : wrap64 ((digitsToNat ds : Int) * mult) = (digitsToNat ds : Int) * mult :=
    wrap64_eq_self _ hmulnn hmulbound
  simp only [ParseBodySize, hne, if_false, htrim, hlower, hnu, hlast, hdrop]
  rcases hc with ⟨hcc, hm⟩ | ⟨hcc, hm⟩ | ⟨hcc, hm⟩ <;> subst hcc <;> subst hm <;>
    norm_num at hwrap ⊢ <;> simp [hatoi, hwrap]

theorem rlStepRPS_id (anns : List (GoString × GoString)) (st : RateLimitConfig × List FieldError × Bool)
    (h : annGet anns limitRPSAnn = []) : rlStepRPS anns st = st := by
  simp [rlStepRPS, h]

theorem rlStepRPM_rps_ne (anns : List (GoString × GoString)) (st : RateLimitConfig × List FieldError × Bool)
    (h : st.1.rps ≠ 0) : (rlStepRPM anns st).1.rps = st.1.rps := by
  simp only [rlStepRPM]
  split
  · split <;> rfl
  · rfl

theorem rlStepConn_rps (anns : List (GoString × GoString)) (st : RateLimitConfig × List FieldError × Bool) :
    (rlStepConn anns st).1.rps = st.1.rps := by
  simp only [rlStepConn]
  split
  · split <;> rfl
  · rfl

theorem rlStepBurst_rps (anns : List (GoString × GoString)) (st : RateLimitConfig × List FieldError × Bool) :
    (rlStepBurst anns st).1.rps = st.1.rps := by
  simp only [rlStepBurst]
  split
  · split <;> rfl
  · rfl

theorem rlStepZone_rps (anns : List (GoString × GoString)) (st : RateLimitConfig × List FieldError × Bool)
    (h : st.1.rps ≠ 0) : (rlStepZone anns st).1.rps = st.1.rps := by
  simp only [rlStepZone]
  split
  · split
    · split <;> rfl
    · rfl
  · rfl

theorem rlStepRPM_hc (anns : List (GoString × GoString)) (st : RateLimitConfig × List FieldError × Bool)
    (h : st.2.2 = true) : (rlStepRPM anns st).2.2 = true := by
  simp only [rlStepRPM]
  split
  · split
    · exact h
    · rfl
  · exact h

theorem rlStepConn_hc (anns : List (GoString × GoString)) (st : RateLimitConfig × List FieldError × Bool)
    (h : st.2.2 = true) : (rlStepConn anns st).2.2 = true := by
  simp only [rlStepConn]
  split
  · split
    · exact h
    · rfl
  · exact h

theorem rlStepBurst_hc (anns : List (GoString × GoString)) (st : RateLimitConfig × List FieldError × Bool)
    (h : st.2.2 = true) : (rlStepBurst anns st).2.2 = true := by
  simp only [rlStepBurst]
  split
  · split
    · exact h
    · rfl
  · exact h

theorem rlStepZone_hc (anns : List (GoString × GoString)) (st : RateLimitConfig × List FieldError × Bool)
    (h : st.2.2 = true) : (rlStepZone anns st).2.2 = true := by
  simp only [rlStepZone]
  split
  · rfl
  · exact h

theorem goAtoi_ne_nil {s : GoString} {v : Int} (h : goAtoi s = some v) : s ≠ [] := by
  intro he
  subst he
  exact Option.noConfusion h

/-! # Claim theorems -/

/-- C10: if a route's body-size annotation value denotes unlimited
("0", "unlimited", "-1") or fails to parse, the materialized body-size
filter sets the limit to exactly 1073741824 bytes (1 GiB), never leaving
it unlimited; otherwise a numeral with suffix `k`, `m` or `g` is converted
to bytes with binary multipliers 1024, 1048576 and 1073741824. -/
theorem c10_body_size_default_and_conversion :
    (∀ k gns gn,
      (buildBodySizeEnvoyFilter k gns gn ("0".toList)).maxRequestBytes = 1073741824 ∧
      (buildBodySizeEnvoyFilter k gns gn ("unlimited".toList)).maxRequestBytes = 1073741824 ∧
      (buildBodySizeEnvoyFilter k gns gn ("-1".toList)).maxRequestBytes = 1073741824) ∧
    (∀ k gns gn s e, ParseBodySize s = Except.error e →
      (buildBodySizeEnvoyFilter k gns gn s).maxRequestBytes = 1073741824) ∧
    (∀ ds, ds ≠ [] → (∀ x ∈ ds, isDecDigit x) →
      (digitsToNat ds : Int) * (1024 * 1024 * 1024) ≤ int64Max →
      ParseBodySize (ds ++ ['k']) = Except.ok ((digitsToNat ds : Int) * 1024) ∧
      ParseBodySize (ds ++ ['m']) = Except.ok ((digitsToNat ds : Int) * 1048576) ∧
      ParseBodySize (ds ++ ['g']) = Except.ok ((digitsToNat ds : Int) * 1073741824)) := by
  refine ⟨?_, ?_, ?_⟩
  · intro k gns gn
    exact ⟨rfl, rfl, rfl⟩
  · intro k gns gn s e h
    simp [buildBodySizeEnvoyFilter, h]
  · intro ds h1 h2 h3
    refine ⟨?_, ?_, ?_⟩
    · exact parseBodySize_suffix ds 'k' 1024 h1 h2 (Or.inl ⟨rfl, rfl⟩) h3
    · simpa using parseBodySize_suffix ds 'm' (1024 * 1024) h1 h2 (Or.inr (Or.inl ⟨rfl, rfl⟩)) h3
    · simpa using parseBodySize_suffix ds 'g' (1024 * 1024 * 1024) h1 h2
        (Or.inr (Or.inr ⟨rfl, rfl⟩)) h3

/-- C5: with no explicit requests-per-second annotation set, a
requests-per-minute value v is converted to RPS as v divided by 60
(Go truncated division), rounded up to the minimum 1 when v is positive
but the quotient truncates to 0; in particular RPM=60 → RPS=1,
RPM=59 → RPS=1 and RPM=120 → RPS=2. -/
theorem c5_rpm_to_rps_conversion :
    (∀ (ing : Ingress) (v : Int), annGet ing.anns limitRPSAnn = [] →
      goAtoi (annGet ing.anns limitRPMAnn) = some v → 0 < v →
      ((parseRateLimitConfig ing).1).map RateLimitConfig.rps
        = some (if Int.tdiv v 60 = 0 then 1 else Int.tdiv v 60)) ∧
    ((parseRateLimitConfig (rpmIngress ("60".toList))).1).map RateLimitConfig.rps = some 1 ∧
    ((parseRateLimitConfig (rpmIngress ("59".toList))).1).map RateLimitConfig.rps = some 1 ∧
    ((parseRateLimitConfig (rpmIngress ("120".toList))).1).map RateLimitConfig.rps = some 2 := by
  refine ⟨?_, by decide, by decide, by decide⟩
  intro ing v hrps hrpm hv
  have hne : annGet ing.anns limitRPMAnn ≠ [] := by
    intro he
    rw [he] at hrpm
    have hnil : goAtoi ([] : GoString) = none := rfl
    rw [hnil] at hrpm
    exact Option.noConfusion hrpm
  have h1 : rlStepRPS ing.anns (RateLimitConfig.zero, [], false)
      = (RateLimitConfig.zero, [], false) := rlStepRPS_id _ _ hrps
  have h2 : rlStepRPM ing.anns (RateLimitConfig.zero, [], false) = (rpmConvConfig v, [], true) := by
    simp only [rlStepRPM, rpmConvConfig]
    rw [if_pos hne, hrpm]
    rfl
  have hrpsne : (rpmConvConfig v).rps ≠ 0 := by
    show (if Int.tdiv v 60 = 0 ∧ 0 < v then (1 : Int) else Int.tdiv v 60) ≠ 0
    split
    · norm_num
    · next hcond =>
      intro h0
      exact hcond ⟨h0, hv⟩
  set cfg2st : RateLimitConfig × List FieldError × Bool := (rpmConvConfig v, [], true) with hcfg2
  have hc3 := rlStepConn_rps ing.anns cfg2st
  have hc4 := rlStepBurst_rps ing.anns (rlStepConn ing.anns cfg2st)
  have hz := rlStepZone_rps ing.anns (rlStepBurst ing.anns (rlStepConn ing.anns cfg2st))
    (by rw [hc4, hc3]; exact hrpsne)
  have hh3 := rlStepConn_hc ing.anns cfg2st rfl
  have hh4 := rlStepBurst_hc ing.anns (rlStepConn ing.anns cfg2st) hh3
  have hh5 := rlStepZone_hc ing.anns (rlStepBurst ing.anns (rlStepConn ing.anns cfg2st)) hh4
  simp only [parseRateLimitConfig, h1, h2, ← hcfg2]
  rw [if_pos hh5]
  simp only [Option.map_some']
  rw [hz, hc4, hc3]
  simp [hcfg2, rpmConvConfig, hv]

/-- Witness for C5: the general conversion applied at the concrete
ingress carrying RPM=59 (quotient truncates to 0, rounded up to 1). -/
theorem c5_witness :
    ((parseRateLimitConfig (rpmIngress ("59".toList))).1).map RateLimitConfig.rps = some 1 := by
  have h := c5_rpm_to_rps_conversion.1 (rpmIngress ("59".toList)) 59 (by decide) rfl (by decide)
  simpa using h

theorem parseClientCertAuthConfig_invalid (ing : Ingress)
    (h1 : annGet ing.anns authTLSSecretAnn ≠ [])
    (h2 : annGet ing.anns authTLSVerifyClientAnn ≠ [])
    (h3 : ¬(annGet ing.anns authTLSVerifyClientAnn = "on".toList ∨
            annGet ing.anns authTLSVerifyClientAnn = "off".toList ∨
            annGet ing.anns authTLSVerifyClientAnn = "optional".toList ∨
            annGet ing.anns authTLSVerifyClientAnn = "optional_no_ca".toList)) :
    ∃ d tail, parseClientCertAuthConfig ing
      = (some ⟨annGet ing.anns authTLSSecretAnn, "on".toList, d,
               annGet ing.anns authTLSErrorPageAnn,
               if annGet ing.anns authTLSPassCertToUpstreamAnn ≠ [] then
                 decide (annGet ing.anns authTLSPassCertToUpstreamAnn = "true".toList)
               else false⟩,
         annErr authTLSVerifyClientAnn (annGet ing.anns authTLSVerifyClientAnn)
           ("invalid verify-client value, must be one of: on, off, optional, optional_no_ca".toList)
           :: tail) := by
  simp only [parseClientCertAuthConfig]
  rw [if_neg h1]
  have hvr : (if annGet ing.anns authTLSVerifyClientAnn = [] then "on".toList
      else annGet ing.anns authTLSVerifyClientAnn) = annGet ing.anns authTLSVerifyClientAnn :=
    if_neg h2
  rw [hvr, if_neg h3]
  exact ⟨_, _, rfl⟩

/-- Counterexample for C6: on a zone descriptor where both patterns match,
the first match in the string is `rate=100r/s`, yet the resolved RPS is 2
(derived from the later `rate=120r/m` match), not 100: the `r/m` pattern
overwrites the `r/s` result, so "the first match in the string wins" is
false. -/
theorem c6_first_match_counterexample :
    zoneScan 's' (annGet c6ZoneIngress.anns limitReqZoneAnn) = some 100 ∧
    zoneScan 'm' (annGet c6ZoneIngress.anns limitReqZoneAnn) = some 120 ∧
    ((parseRateLimitConfig c6ZoneIngress).1).map RateLimitConfig.rps = some 2 ∧
    ((parseRateLimitConfig c6ZoneIngress).1).map RateLimitConfig.rps ≠ some 100 := by
  refine ⟨by decide, by decide, by decide, by decide⟩

/-- C6 (amended): the rate is extracted from the zone descriptor by
pattern match on `rate=<int>r/s` or `rate=<int>r/m`, taking the leftmost
occurrence of each pattern; when both patterns match, the r/m-derived
value overwrites the r/s-derived one (rather than the first match in the
string winning); explicit RPS/RPM annotations take precedence over the
zone-derived value. -/
theorem c6_zone_rate_pattern_and_precedence :
    (∀ zone rpm, zoneScan 'm' zone = some rpm → (rpm : Int) ≤ int64Max →
      (parseZoneRate zone).rps
        = if Int.tdiv (rpm : Int) 60 = 0 ∧ 0 < (rpm : Int) then 1 else Int.tdiv (rpm : Int) 60) ∧
    (∀ zone r, zoneScan 'm' zone = none → zoneScan 's' zone = some r → (r : Int) ≤ int64Max →
      (parseZoneRate zone).rps = r) ∧
    (∀ (ing : Ingress) (v : Int), goAtoi (annGet ing.anns limitRPSAnn) = some v → v ≠ 0 →
      ((parseRateLimitConfig ing).1).map RateLimitConfig.rps = some v) := by
  refine ⟨?_, ?_, ?_⟩
  · intro zone rpm hm hb
    simp only [parseZoneRate, hm]
    rw [if_pos hb]
  · intro zone r hm hs hb
    simp only [parseZoneRate, hm, hs]
    rw [if_pos hb]
  · intro ing v hrpsv hvne
    have hne : annGet ing.anns limitRPSAnn ≠ [] := by
      intro he
      rw [he] at hrpsv
      have hnil : goAtoi ([] : GoString) = none := rfl
      rw [hnil] at hrpsv
      exact Option.noConfusion hrpsv
    have h1 : rlStepRPS ing.anns (RateLimitConfig.zero, [], false)
        = ({ RateLimitConfig.zero with rps := v }, [], true) := by
      simp only [rlStepRPS]
      rw [if_pos hne, hrpsv]
    set st1 : RateLimitConfig × List FieldError × Bool :=
      ({ RateLimitConfig.zero with rps := v }, [], true) with hst1
    have hrps_ne : st1.1.rps ≠ 0 := hvne
    have hr2 := rlStepRPM_rps_ne ing.anns st1 hrps_ne
    have hr3 := rlStepConn_rps ing.anns (rlStepRPM ing.anns st1)
    have hr4 := rlStepBurst_rps ing.anns (rlStepConn ing.anns (rlStepRPM ing.anns st1))
    have hr5 := rlStepZone_rps ing.anns
      (rlStepBurst ing.anns (rlStepConn ing.anns (rlStepRPM ing.anns st1)))
      (by rw [hr4, hr3, hr2]; exact hrps_ne)
    have hh2 := rlStepRPM_hc ing.anns st1 rfl
    have hh3 := rlStepConn_hc ing.anns (rlStepRPM ing.anns st1) hh2
    have hh4 := rlStepBurst_hc ing.anns (rlStepConn ing.anns (rlStepRPM ing.anns st1)) hh3
    have hh5 := rlStepZone_hc ing.anns
      (rlStepBurst ing.anns (rlStepConn ing.anns (rlStepRPM ing.anns st1))) hh4
    simp only [parseRateLimitConfig, h1, ← hst1]
    rw [if_pos hh5]
    simp only [Option.map_some']
    rw [hr5, hr4, hr3, hr2]

/-- Witness for C6: the r/m branch applied to a concrete zone descriptor
(120 r/m resolves to RPS 2), and precedence applied to an ingress carrying
both an explicit RPS annotation and a zone descriptor. -/
theorem c6_witness :
    (parseZoneRate ("limit rate=120r/m".toList)).rps = 2 ∧
    ((parseRateLimitConfig (⟨"t".toList, "app".toList,
        [(limitRPSAnn, "9".toList),
         (limitReqZoneAnn, "rate=100r/s rate=120r/m".toList)], ⟨none, []⟩⟩ : Ingress)).1).map
      RateLimitConfig.rps = some 9 := by
  constructor
  · have h := c6_zone_rate_pattern_and_precedence.1 ("limit rate=120r/m".toList) 120
      (by decide) (by decide)
    simpa using h
  · exact c6_zone_rate_pattern_and_precedence.2.2 _ 9 rfl (by decide)

theorem bpStep_get_preserve (nsp : GoString) (c : BackendTLSConfig) (ir2 : IR)
    (b : BackendService) (k : NamespacedName) (p : BackendTLSPolicy)
    (h : mapGet ir2.backendTLSPolicies k = some p) :
    mapGet ((bpStep nsp c ir2 b).backendTLSPolicies) k = some p := by
  simp only [bpStep]
  split
  · exact h
  · next hkey =>
    split
    · by_cases hk : (⟨nsp, b.serviceName ++ "-backend-tls".toList⟩ : NamespacedName) = k
      · rw [← hk] at h
        exact absurd (by simp only [mapHasKey]; rw [h]; rfl) hkey
      · show mapGet (mapSet ir2.backendTLSPolicies _ _) k = some p
        rw [mapGet_mapSet_ne _ _ _ _ (Ne.symm hk)]
        exact h
    · exact h

theorem bpStep_count_preserve (nsp : GoString) (c : BackendTLSConfig) (ir2 : IR)
    (b : BackendService) (k : NamespacedName) (p : BackendTLSPolicy)
    (h : mapGet ir2.backendTLSPolicies k = some p) :
    mapCountKey ((bpStep nsp c ir2 b).backendTLSPolicies) k
      = mapCountKey ir2.backendTLSPolicies k := by
  simp only [bpStep]
  split
  · rfl
  · next hkey =>
    split
    · by_cases hk : (⟨nsp, b.serviceName ++ "-backend-tls".toList⟩ : NamespacedName) = k
      · rw [← hk] at h
        exact absurd (by simp only [mapHasKey]; rw [h]; rfl) hkey
      · show mapCountKey (mapSet ir2.backendTLSPolicies _ _) k = _
        rw [mapCountKey_mapSet_ne _ _ _ _ (Ne.symm hk)]
    · rfl

theorem bpStep_get_none (nsp : GoString) (c : BackendTLSConfig) (ir2 : IR)
    (b : BackendService) (k : NamespacedName)
    (h : mapGet ir2.backendTLSPolicies k = none)
    (hne : (⟨nsp, b.serviceName ++ "-backend-tls".toList⟩ : NamespacedName) ≠ k) :
    mapGet ((bpStep nsp c ir2 b).backendTLSPolicies) k = none := by
  simp only [bpStep]
  split
  · exact h
  · split
    · show mapGet (mapSet ir2.backendTLSPolicies _ _) k = none
      rw [mapGet_mapSet_ne _ _ _ _ (Ne.symm hne)]
      exact h
    · exact h

theorem foldBackends_get_preserve (nsp : GoString) (c : BackendTLSConfig) :
    ∀ (bs : List BackendService) (ir2 : IR) (k : NamespacedName) (p : BackendTLSPolicy),
      mapGet ir2.backendTLSPolicies k = some p →
      mapGet ((bs.foldl (bpStep nsp c) ir2).backendTLSPolicies) k = some p := by
  intro bs
  induction bs with
  | nil => intro ir2 k p h; simpa using h
  | cons b rest ih =>
    intro ir2 k p h
    rw [List.foldl_cons]
    exact ih _ _ _ (bpStep_get_preserve nsp c ir2 b k p h)

theorem foldBackends_count_preserve (nsp : GoString) (c : BackendTLSConfig) :
    ∀ (bs : List BackendService) (ir2 : IR) (k : NamespacedName) (p : BackendTLSPolicy),
      mapGet ir2.backendTLSPolicies k = some p →
      mapCountKey ((bs.foldl (bpStep nsp c) ir2).backendTLSPolicies) k
        = mapCountKey ir2.backendTLSPolicies k := by
  intro bs
  induction bs with
  | nil => intro ir2 k p h; rfl
  | cons b rest ih =>
    intro ir2 k p h
    rw [List.foldl_cons]
    rw [ih _ _ _ (bpStep_get_preserve nsp c ir2 b k p h)]
    exact bpStep_count_preserve nsp c ir2 b k p h

theorem foldBackends_insert (nsp : GoString) (c : BackendTLSConfig) (s : GoString)
    (p : BackendTLSPolicy)
    (hp : buildBackendTLSPolicy (s ++ "-backend-tls".toList) nsp s (some c) = some p) :
    ∀ (bs : List BackendService) (ir2 : IR),
      (∃ b ∈ bs, b.serviceName = s) →
      mapGet ir2.backendTLSPolicies ⟨nsp, s ++ "-backend-tls".toList⟩ = none →
      mapGet ((bs.foldl (bpStep nsp c) ir2).backendTLSPolicies)
          ⟨nsp, s ++ "-backend-tls".toList⟩ = some p ∧
      mapCountKey ((bs.foldl (bpStep nsp c) ir2).backendTLSPolicies)
          ⟨nsp, s ++ "-backend-tls".toList⟩ = 1 := by
  intro bs
  induction bs with
  | nil =>
    intro ir2 hmem _
    rcases hmem with ⟨b, hb, _⟩
    exact absurd hb (List.not_mem_nil b)
  | cons b rest ih =>
    intro ir2 hmem hnone
    rw [List.foldl_cons]
    by_cases hbs : b.serviceName = s
    · have hstep : bpStep nsp c ir2 b
          = { ir2 with
              backendTLSPolicies :=
                mapSet ir2.backendTLSPolicies ⟨nsp, s ++ "-backend-tls".toList⟩ p } := by
        simp only [bpStep]
        rw [hbs]
        have hhk : ¬(mapHasKey ir2.backendTLSPolicies
            (⟨nsp, s ++ "-backend-tls".toList⟩ : NamespacedName) = true) := by
          simp only [mapHasKey, hnone]
          simp
        rw [if_neg hhk, hp]
      rw [hstep]
      have hget : mapGet
          (mapSet ir2.backendTLSPolicies ⟨nsp, s ++ "-backend-tls".toList⟩ p)
          ⟨nsp, s ++ "-backend-tls".toList⟩ = some p := mapGet_mapSet_self _ _ _
      constructor
      · exact foldBackends_get_preserve nsp c rest _ _ _ hget
      · rw [foldBackends_count_preserve nsp c rest _ _ _ hget]
        exact mapCountKey_mapSet_of_none _ _ _ hnone
    · have hne : (⟨nsp, b.serviceName ++ "-backend-tls".toList⟩ : NamespacedName)
          ≠ ⟨nsp, s ++ "-backend-tls".toList⟩ := by
        intro he
        simp only [NamespacedName.mk.injEq] at he
        exact hbs (List.append_cancel_right he.2)
      have h2 := bpStep_get_none nsp c ir2 b _ hnone hne
      have hmem' : ∃ b' ∈ rest, b'.serviceName = s := by
        rcases hmem with ⟨b', hb', hs'⟩
        rcases List.mem_cons.mp hb' with he | hm
        · subst he
          exact absurd hs' hbs
        · exact ⟨b', hm, hs'⟩
      exact ih (bpStep nsp c ir2 b) hmem' h2

theorem foldl_preserve {α β : Type} (f : β → α → β) (P : β → Prop)
    (hf : ∀ b a, P b → P (f b a)) : ∀ (l : List α) (b : β), P b → P (l.foldl f b) := by
  intro l
  induction l with
  | nil => intro b h; exact h
  | cons a rest ih =>
    intro b h
    rw [List.foldl_cons]
    exact ih _ (hf b a h)

theorem findHTTPRouteKey_of_noRoute (ir : IR) (key : NamespacedName)
    (h : noRouteInNs ir key.ns) : findHTTPRouteKey ir key = NamespacedName.zero := by
  unfold findHTTPRouteKey
  rw [List.find?_eq_none.mpr]
  intro x hx
  simp [h x hx]

/-- C1 (divergence at the failing input): in per-tenant (per-namespace)
mode, with one generated gateway and two routes in the different source
namespaces `a` and `b`, the transform does synthesize one front-end per
namespace (`a-gateway` and `b-gateway`), but rewrites BOTH routes' parent
references to the front-end of the last-iterated namespace (`b-gateway`):
route `a/ra` ends up referencing namespace b's front-end instead of its
own (`a-gateway`), because `oldToNewGateway[oldKey]` is overwritten on
every namespace iteration. -/
theorem c1_cross_namespace_rewrite_bug :
    (mapGet (transformGatewaysForMode perNsConfig c1Resources).gateways
        ⟨"a-gateway".toList, "a-gateway".toList⟩).isSome = true ∧
    (mapGet (transformGatewaysForMode perNsConfig c1Resources).gateways
        ⟨"b-gateway".toList, "b-gateway".toList⟩).isSome = true ∧
    ((mapGet (transformGatewaysForMode perNsConfig c1Resources).httpRoutes
        ⟨"a".toList, "ra".toList⟩).map (fun r => r.parentRefs.map (refTarget r.ns)))
      = some [⟨"b-gateway".toList, "b-gateway".toList⟩] ∧
    perNsConfig.getGatewayRef ("a".toList) = ("a-gateway".toList, "a-gateway".toList) := by
  refine ⟨by decide, by decide, by decide, by decide⟩

/-- Counterexample for C2: after the centralized transform, the Gateways
map is NOT empty — the generated gateway is re-keyed to the configured
namespace/name and kept (one entry), rather than deleted. -/
theorem c2_gateways_not_empty_counterexample :
    (transformGatewaysForMode centralConfig c2Resources).gateways ≠ [] ∧
    (transformGatewaysForMode centralConfig c2Resources).gateways.length = 1 ∧
    (transformGatewaysForMode centralConfig c2Resources).gateways.map Prod.fst
      = [⟨"istio-system".toList, "platform-gateway".toList⟩] := by
  refine ⟨by decide, by decide, by decide⟩

theorem rewriteParentRef_eq (routeNs : GoString) (oldGw newGw : NamespacedName)
    (ref : ParentReference) :
    rewriteParentRef routeNs oldGw newGw ref
      = if refTarget routeNs ref = oldGw then
          { ref with pNamespace := some newGw.ns, name := newGw.name }
        else ref := by
  obtain ⟨ons, oname⟩ := oldGw
  simp only [rewriteParentRef, refTarget, NamespacedName.mk.injEq]

theorem rewriteParentRef_fix (routeNs : GoString) (k newGw : NamespacedName)
    (ref : ParentReference) :
    rewriteParentRef routeNs k newGw { ref with pNamespace := some newGw.ns, name := newGw.name }
      = { ref with pNamespace := some newGw.ns, name := newGw.name } := by
  rw [rewriteParentRef_eq]
  split
  · rfl
  · rfl

theorem foldRewrite_fix (routeNs : GoString) (newGw : NamespacedName) (ref : ParentReference) :
    ∀ ks, foldRewrite routeNs ks newGw { ref with pNamespace := some newGw.ns, name := newGw.name }
      = { ref with pNamespace := some newGw.ns, name := newGw.name } := by
  intro ks
  induction ks with
  | nil => rfl
  | cons k rest ih =>
    show foldRewrite routeNs rest newGw
      (rewriteParentRef routeNs k newGw { ref with pNamespace := some newGw.ns, name := newGw.name })
      = _
    rw [rewriteParentRef_fix]
    exact ih

theorem foldRewrite_mem (routeNs : GoString) (newGw : NamespacedName) :
    ∀ (ks : List NamespacedName) (ref : ParentReference),
      refTarget routeNs ref ∈ ks →
      foldRewrite routeNs ks newGw ref
        = { ref with pNamespace := some newGw.ns, name := newGw.name } := by
  intro ks
  induction ks with
  | nil => intro ref h; exact absurd h (List.not_mem_nil _)
  | cons k rest ih =>
    intro ref h
    show foldRewrite routeNs rest newGw (rewriteParentRef routeNs k newGw ref) = _
    by_cases he : refTarget routeNs ref = k
    · rw [rewriteParentRef_eq, if_pos he]
      exact foldRewrite_fix routeNs newGw ref rest
    · rw [rewriteParentRef_eq, if_neg he]
      refine ih ref ?_
      rcases List.mem_cons.mp h with h' | h'
      · exact absurd h' he
      · exact h'

theorem foldRewrite_not_mem (routeNs : GoString) (newGw : NamespacedName) :
    ∀ (ks : List NamespacedName) (ref : ParentReference),
      refTarget routeNs ref ∉ ks → foldRewrite routeNs ks newGw ref = ref := by
  intro ks
  induction ks with
  | nil => intro ref _; rfl
  | cons k rest ih =>
    intro ref h
    show foldRewrite routeNs rest newGw (rewriteParentRef routeNs k newGw ref) = _
    rw [rewriteParentRef_eq, if_neg (fun he => h (List.mem_cons.mpr (Or.inl he)))]
    exact ih ref (fun hm => h (List.mem_cons.mpr (Or.inr hm)))

theorem updateFold_as_map (newGw : NamespacedName) :
    ∀ (gws : List (NamespacedName × Gateway)) (routes : List (NamespacedName × HTTPRoute)),
      gws.foldl (fun rs p => updateHTTPRouteParentRefs rs p.1 newGw) routes
        = routes.map (fun q =>
            (q.1, { q.2 with
                    parentRefs := q.2.parentRefs.map
                      (foldRewrite q.2.ns (gws.map Prod.fst) newGw) })) := by
  intro gws
  induction gws with
  | nil =>
    intro routes
    simp only [List.foldl_nil, List.map_nil]
    have hq : ∀ q : NamespacedName × HTTPRoute,
        (q.1, { q.2 with parentRefs := q.2.parentRefs.map (foldRewrite q.2.ns [] newGw) }) = q := by
      intro q
      show (q.1, { q.2 with parentRefs := q.2.parentRefs.map (fun r => r) }) = q
      rw [List.map_id']
    rw [List.map_congr_left (fun q _ => hq q)]
    exact (List.map_id' routes).symm
  | cons p ps ih =>
    intro routes
    rw [List.foldl_cons, ih]
    simp only [updateHTTPRouteParentRefs, List.map_map, List.map_cons]
    apply List.map_congr_left
    intro q _
    have hrefs : (q.2.parentRefs.map (rewriteParentRef q.2.ns p.1 newGw)).map
        (foldRewrite q.2.ns (ps.map Prod.fst) newGw)
        = q.2.parentRefs.map (foldRewrite q.2.ns (p.1 :: ps.map Prod.fst) newGw) := by
      rw [List.map_map]
      exact List.map_congr_left (fun r _ => rfl)
    exact congrArg (fun x => (q.1, { q.2 with parentRefs := x })) hrefs

theorem centralizedFold (cfg : GatewayConfig) :
    ∀ (gws : List (NamespacedName × Gateway)) (m : List (NamespacedName × Gateway))
      (rs : List (NamespacedName × HTTPRoute)),
      gws.foldl
        (fun acc p =>
          (mapSet acc.1 ⟨cfg.ns, cfg.name⟩
            { p.2 with ns := cfg.ns, name := cfg.name, gatewayClassName := "istio".toList },
           updateHTTPRouteParentRefs acc.2 p.1 ⟨cfg.ns, cfg.name⟩))
        (m, rs)
      = (gws.foldl
          (fun m2 p => mapSet m2 ⟨cfg.ns, cfg.name⟩
            { p.2 with ns := cfg.ns, name := cfg.name, gatewayClassName := "istio".toList }) m,
         gws.foldl (fun rs2 p => updateHTTPRouteParentRefs rs2 p.1 ⟨cfg.ns, cfg.name⟩) rs) := by
  intro gws
  induction gws with
  | nil => intro m rs; rfl
  | cons p ps ih =>
    intro m rs
    rw [List.foldl_cons, List.foldl_cons, List.foldl_cons]
    exact ih _ _

theorem centralizedGwFold_keeps_shape (cfg : GatewayConfig) :
    ∀ (gws : List (NamespacedName × Gateway)) (m : List (NamespacedName × Gateway)),
      (∃ w, m = [((⟨cfg.ns, cfg.name⟩ : NamespacedName), w)]) →
      ∃ w, gws.foldl
          (fun m2 p => mapSet m2 ⟨cfg.ns, cfg.name⟩
            { p.2 with ns := cfg.ns, name := cfg.name, gatewayClassName := "istio".toList }) m
        = [((⟨cfg.ns, cfg.name⟩ : NamespacedName), w)] := by
  intro gws m hm
  refine foldl_preserve _ (fun x => ∃ w, x = [((⟨cfg.ns, cfg.name⟩ : NamespacedName), w)])
    ?_ gws m hm
  intro b p hb
  obtain ⟨w, rfl⟩ := hb
  exact ⟨{ p.2 with ns := cfg.ns, name := cfg.name, gatewayClassName := "istio".toList },
    by simp [mapSet]⟩

/-- C2 (amended): in centralized mode the transform does not leave the
front-end map empty — it re-keys the generated gateways to the single
configured (namespace, name) key, so the map holds exactly one entry
whenever at least one front-end was generated (and none only when none
was); and every route parent reference that pointed at a generated
front-end key ends up pointing at the configured namespace/name (section
name preserved), all other references unchanged. -/
theorem c2_centralized_rekey_and_rewrite (cfg : GatewayConfig) (gr : GatewayResources)
    (hmode : cfg.mode = "centralized".toList) :
    (gr.gateways = [] → (transformGatewaysForMode cfg gr).gateways = []) ∧
    (gr.gateways ≠ [] → ∃ w, (transformGatewaysForMode cfg gr).gateways
        = [((⟨cfg.ns, cfg.name⟩ : NamespacedName), w)]) ∧
    (transformGatewaysForMode cfg gr).httpRoutes
      = gr.httpRoutes.map (fun q =>
          (q.1, { q.2 with
                  parentRefs := q.2.parentRefs.map (fun ref =>
                    if refTarget q.2.ns ref ∈ gr.gateways.map Prod.fst then
                      centralizedRef cfg ref
                    else ref) })) := by
  have htrans : transformGatewaysForMode cfg gr
      = { gateways :=
            gr.gateways.foldl
              (fun m2 p => mapSet m2 ⟨cfg.ns, cfg.name⟩
                { p.2 with ns := cfg.ns, name := cfg.name, gatewayClassName := "istio".toList }) []
        , httpRoutes :=
            gr.gateways.foldl
              (fun rs2 p => updateHTTPRouteParentRefs rs2 p.1 ⟨cfg.ns, cfg.name⟩)
              gr.httpRoutes } := by
    simp only [transformGatewaysForMode]
    rw [if_pos hmode]
    rw [centralizedFold]
  refine ⟨?_, ?_, ?_⟩
  · intro he
    rw [htrans]
    show gr.gateways.foldl _ [] = []
    rw [he]
    rfl
  · intro hne
    rw [htrans]
    obtain ⟨p, ps, hgw⟩ := List.exists_cons_of_ne_nil hne
    show ∃ w, gr.gateways.foldl _ [] = [((⟨cfg.ns, cfg.name⟩ : NamespacedName), w)]
    rw [hgw, List.foldl_cons]
    refine centralizedGwFold_keeps_shape cfg ps _ ?_
    exact ⟨{ p.2 with ns := cfg.ns, name := cfg.name, gatewayClassName := "istio".toList }, rfl⟩
  · rw [htrans]
    show gr.gateways.foldl (fun rs2 p => updateHTTPRouteParentRefs rs2 p.1 ⟨cfg.ns, cfg.name⟩)
        gr.httpRoutes = _
    rw [updateFold_as_map]
    apply List.map_congr_left
    intro q _
    refine congrArg (fun x => (q.1, { q.2 with parentRefs := x })) ?_
    apply List.map_congr_left
    intro r _
    by_cases hm : refTarget q.2.ns r ∈ gr.gateways.map Prod.fst
    · rw [foldRewrite_mem _ _ _ _ hm, if_pos hm]
      rfl
    · rw [foldRewrite_not_mem _ _ _ _ hm, if_neg hm]

/-- Witness for C2: the amended theorem applied at the concrete
centralized configuration and resources — one kept gateway entry under
`istio-system/platform-gateway`, and the route rewrite map. -/
theorem c2_witness :
    (∃ w, (transformGatewaysForMode centralConfig c2Resources).gateways
        = [((⟨"istio-system".toList, "platform-gateway".toList⟩ : NamespacedName), w)]) ∧
    (transformGatewaysForMode centralConfig c2Resources).httpRoutes
      = c2Resources.httpRoutes.map (fun q =>
          (q.1, { q.2 with
                  parentRefs := q.2.parentRefs.map (fun ref =>
                    if refTarget q.2.ns ref ∈ c2Resources.gateways.map Prod.fst then
                      centralizedRef centralConfig ref
                    else ref) })) := by
  have h := c2_centralized_rekey_and_rewrite centralConfig c2Resources rfl
  exact ⟨h.2.1 (by decide), h.2.2⟩

theorem sslHostFold_skip (gwRef : GoString × GoString) (rk : NamespacedName) :
    ∀ (hosts : List GoString) (acc : GatewayResources),
      mapHasKey acc.httpRoutes ⟨rk.ns, rk.name ++ "-redirect".toList⟩ = true →
      hosts.foldl (sslRedirectHostStep gwRef rk) acc = acc := by
  intro hosts
  induction hosts with
  | nil => intro acc _; rfl
  | cons h rest ih =>
    intro acc hkey
    rw [List.foldl_cons]
    have hstep : sslRedirectHostStep gwRef rk acc h = acc := by
      simp only [sslRedirectHostStep]
      rw [if_pos hkey]
    rw [hstep]
    exact ih acc hkey

/-- Counterexample for C3: an IR route flagged for SSL redirect with the
two hostnames `a.com` and `b.com` yields exactly ONE redirect route, not
one per hostname: the redirect-route key `r1-redirect` does not depend on
the hostname, so the second hostname hits the already-exists skip, and the
single generated route carries only the first hostname. -/
theorem c3_one_route_per_hostname_counterexample :
    (buildSSLRedirectRoutes c3FlaggedIR ⟨[], []⟩ perNsConfig).httpRoutes.length = 1 ∧
    (buildSSLRedirectRoutes c3FlaggedIR ⟨[], []⟩ perNsConfig).httpRoutes
      = [(⟨"ns".toList, "r1-redirect".toList⟩,
          redirectRouteObj ⟨"ns".toList, "r1-redirect".toList⟩
            ("ns-gateway".toList) ("ns-gateway".toList) ("a-com-http".toList) ("a.com".toList))] := by
  refine ⟨by decide, by decide⟩

/-- C3 (amended): for a route flagged for SSL redirect, materialization
synthesizes exactly one redirect route per flagged route — keyed
`(namespace, name + "-redirect")` and carrying the route's first hostname;
the remaining hostnames hit the already-exists skip because the key does
not depend on the hostname.  The generated route attaches only to the
HTTP listener (a single parent reference whose section name is the
`<host>-http` listener), carries the https scheme-upgrade filter with
permanent-redirect status 301, and generation is skipped entirely when an
object already exists under the computed key. -/
theorem c3_redirect_single_route_first_hostname :
    (∀ (rk : NamespacedName) (ctx : HTTPRouteContext) (nIR : IngressNginxHTTPRouteIR)
       (svcs : List (NamespacedName × ServiceContext))
       (pols : List (NamespacedName × BackendTLSPolicy))
       (gr : GatewayResources) (cfg : GatewayConfig) (h : GoString) (hosts : List GoString),
       ctx.providerSpecificIR.ingressNginx = some nIR →
       nIR.sslRedirect = true →
       ctx.httpRoute.hostnames = h :: hosts →
       mapGet gr.httpRoutes ⟨rk.ns, rk.name ++ "-redirect".toList⟩ = none →
       buildSSLRedirectRoutes ⟨[(rk, ctx)], svcs, pols⟩ gr cfg
         = { gr with
             httpRoutes :=
               mapSet gr.httpRoutes ⟨rk.ns, rk.name ++ "-redirect".toList⟩
                 (redirectRouteObj ⟨rk.ns, rk.name ++ "-redirect".toList⟩
                   (cfg.getGatewayRef rk.ns).1 (cfg.getGatewayRef rk.ns).2
                   (buildHTTPListenerName h) h) }) ∧
    (∀ (rk : NamespacedName) (ctx : HTTPRouteContext) (nIR : IngressNginxHTTPRouteIR)
       (svcs : List (NamespacedName × ServiceContext))
       (pols : List (NamespacedName × BackendTLSPolicy))
       (gr : GatewayResources) (cfg : GatewayConfig),
       ctx.providerSpecificIR.ingressNginx = some nIR →
       mapHasKey gr.httpRoutes ⟨rk.ns, rk.name ++ "-redirect".toList⟩ = true →
       buildSSLRedirectRoutes ⟨[(rk, ctx)], svcs, pols⟩ gr cfg = gr) ∧
    (∀ (k : NamespacedName) (gwNs gwName ln h : GoString),
       (redirectRouteObj k gwNs gwName ln h).parentRefs = [⟨gwName, some gwNs, some ln⟩] ∧
       (redirectRouteObj k gwNs gwName ln h).hostnames = [h] ∧
       (redirectRouteObj k gwNs gwName ln h).rules = [⟨[buildSSLRedirectFilter]⟩] ∧
       buildSSLRedirectFilter.requestRedirect
         = some ⟨some ("https".toList), some (301 : Int)⟩) := by
  refine ⟨?_, ?_, ?_⟩
  · intro rk ctx nIR svcs pols gr cfg h hosts h1 h2 h3 hnone
    simp only [buildSSLRedirectRoutes, List.foldl_cons, List.foldl_nil, h1, h2, h3, if_true]
    have hstep : sslRedirectHostStep (cfg.getGatewayRef rk.ns) rk gr h
        = { gr with
            httpRoutes :=
              mapSet gr.httpRoutes ⟨rk.ns, rk.name ++ "-redirect".toList⟩
                (redirectRouteObj ⟨rk.ns, rk.name ++ "-redirect".toList⟩
                  (cfg.getGatewayRef rk.ns).1 (cfg.getGatewayRef rk.ns).2
                  (buildHTTPListenerName h) h) } := by
      simp only [sslRedirectHostStep]
      rw [if_neg (by simp only [mapHasKey, hnone]; simp)]
    rw [hstep]
    apply sslHostFold_skip
    simp only [mapHasKey]
    rw [mapGet_mapSet_self]
    rfl
  · intro rk ctx nIR svcs pols gr cfg h1 hkey
    simp only [buildSSLRedirectRoutes, List.foldl_cons, List.foldl_nil, h1]
    split
    · exact sslHostFold_skip _ _ _ _ hkey
    · rfl
  · intro k gwNs gwName ln h
    exact ⟨rfl, rfl, rfl, rfl⟩

/-- Witness for C3: the single-route clause applied at the concrete
flagged IR with hostnames `a.com` and `b.com`, and the skip clause applied
when the redirect key is already taken. -/
theorem c3_witness :
    buildSSLRedirectRoutes c3FlaggedIR ⟨[], []⟩ perNsConfig
      = { (⟨[], []⟩ : GatewayResources) with
          httpRoutes :=
            mapSet [] ⟨"ns".toList, "r1-redirect".toList⟩
              (redirectRouteObj ⟨"ns".toList, "r1-redirect".toList⟩
                (perNsConfig.getGatewayRef ("ns".toList)).1
                (perNsConfig.getGatewayRef ("ns".toList)).2
                (buildHTTPListenerName ("a.com".toList)) ("a.com".toList)) } := by
  exact c3_redirect_single_route_first_hostname.1 ⟨"ns".toList, "r1".toList⟩
    ⟨⟨"ns".toList, "r1".toList, [], [], [], ["a.com".toList, "b.com".toList], []⟩,
     ⟨some { IngressNginxHTTPRouteIR.zero with sslRedirect := true }⟩⟩
    { IngressNginxHTTPRouteIR.zero with sslRedirect := true }
    [] [] ⟨[], []⟩ perNsConfig ("a.com".toList) [("b.com".toList)]
    rfl rfl rfl rfl

/-- Counterexample for C4: the IR holds two canonical routes in namespace
`ns`; under the Route Resolver's grouping the annotated object `ns/ing2`
contributes to `ns/ing2-route`, yet the rate-limit pass writes the parsed
configuration into `ns/alpha` — the first route in the namespace in
iteration order — and leaves `ns/ing2-route` untouched.  The write target
therefore does not follow the resolver's grouping. -/
theorem c4_wrong_route_counterexample :
    (rateLimitFeature [c4Ingress] c4TwoRouteIR).1.httpRoutes
      = [(⟨"ns".toList, "alpha".toList⟩,
          ⟨HTTPRoute.zero, ⟨some { IngressNginxHTTPRouteIR.zero with rateLimitRPS := 7 }⟩⟩),
         (⟨"ns".toList, "ing2-route".toList⟩, HTTPRouteContext.zero)] ∧
    (rateLimitFeature [c4Ingress] c4TwoRouteIR).2 = [] := by
  refine ⟨by decide, by decide⟩

/-- C4 (amended): each of the four passes (rate limit, client-cert auth,
external auth, proxy settings) selects its write target with
`findHTTPRouteKey`, i.e. the first canonical route in the object's
namespace in iteration order — which coincides with the route the object
contributes to only when that namespace holds a single route — and
silently skips the object (IR unchanged, no error) when the namespace
holds no canonical route.  Writes touch no route other than that first
one. -/
theorem c4_first_route_in_namespace_targeting :
    (∀ (ing : Ingress) (ir : IR), (parseRateLimitConfig ing).2 = [] → noRouteInNs ir ing.ns →
      rateLimitFeature [ing] ir = (ir, [])) ∧
    (∀ (ing : Ingress) (ir : IR) (k : NamespacedName),
      k ≠ findHTTPRouteKey ir ⟨ing.ns, ing.name⟩ →
      mapGet ((rateLimitFeature [ing] ir).1).httpRoutes k = mapGet ir.httpRoutes k) ∧
    (∀ (ing : Ingress) (ir : IR), (parseClientCertAuthConfig ing).2 = [] → noRouteInNs ir ing.ns →
      clientCertAuthFeature [ing] ir = (ir, [])) ∧
    (∀ (ing : Ingress) (ir : IR) (k : NamespacedName),
      k ≠ findHTTPRouteKey ir ⟨ing.ns, ing.name⟩ →
      mapGet ((clientCertAuthFeature [ing] ir).1).httpRoutes k = mapGet ir.httpRoutes k) ∧
    (∀ (ing : Ingress) (ir : IR), noRouteInNs ir ing.ns →
      externalAuthFeature [ing] ir = (ir, [])) ∧
    (∀ (ing : Ingress) (ir : IR) (k : NamespacedName),
      k ≠ findHTTPRouteKey ir ⟨ing.ns, ing.name⟩ →
      mapGet ((externalAuthFeature [ing] ir).1).httpRoutes k = mapGet ir.httpRoutes k) ∧
    (∀ (ing : Ingress) (ir : IR), noRouteInNs ir ing.ns →
      ((proxySettingsFeature [ing] ir).1).httpRoutes = ir.httpRoutes ∧
      (proxySettingsFeature [ing] ir).2 = []) ∧
    (∀ (ing : Ingress) (ir : IR) (k : NamespacedName),
      k ≠ findHTTPRouteKey ir ⟨ing.ns, ing.name⟩ →
      mapGet ((proxySettingsFeature [ing] ir).1).httpRoutes k = mapGet ir.httpRoutes k) := by
  have hlbRoutes : ∀ (ingresses : List Ingress) (ir0 : IR),
      (ingresses.foldl lbStepIngress ir0).httpRoutes = ir0.httpRoutes := by
    intro ingresses ir0
    refine foldl_preserve _ (fun x => x.httpRoutes = ir0.httpRoutes) ?_ ingresses ir0 rfl
    intro irAcc ing hAcc
    simp only [lbStepIngress]
    split
    · exact hAcc
    · refine foldl_preserve _ (fun x => x.httpRoutes = ir0.httpRoutes) ?_ _ irAcc hAcc
      intro ir2 rule h2
      simp only [lbStepRule]
      split
      · exact h2
      · refine foldl_preserve _ (fun x => x.httpRoutes = ir0.httpRoutes) ?_ _ ir2 h2
        intro ir3 path h3
        simp only [lbStepPath]
        split
        · exact h3
        · split
          · exact h3
          · exact h3
  refine ⟨?_, ?_, ?_, ?_, ?_, ?_, ?_, ?_⟩
  · intro ing ir hpe hnr
    have hfind := findHTTPRouteKey_of_noRoute ir ⟨ing.ns, ing.name⟩ hnr
    simp only [rateLimitFeature, List.foldl_cons, List.foldl_nil, hpe, hfind]
    rcases hc : (parseRateLimitConfig ing).1 with _ | config <;> simp [hc, hpe, hfind]
  · intro ing ir k hk
    simp only [rateLimitFeature, List.foldl_cons, List.foldl_nil]
    split
    · rfl
    · split
      · rfl
      · split
        · rfl
        · exact mapGet_mapSet_ne _ _ _ _ hk
  · intro ing ir hpe hnr
    have hfind := findHTTPRouteKey_of_noRoute ir ⟨ing.ns, ing.name⟩ hnr
    simp only [clientCertAuthFeature, List.foldl_cons, List.foldl_nil, hpe, hfind]
    rcases hc : (parseClientCertAuthConfig ing).1 with _ | config <;> simp [hc, hpe, hfind]
  · intro ing ir k hk
    simp only [clientCertAuthFeature, List.foldl_cons, List.foldl_nil]
    split
    · rfl
    · split
      · rfl
      · split
        · rfl
        · exact mapGet_mapSet_ne _ _ _ _ hk
  · intro ing ir hnr
    have hfind := findHTTPRouteKey_of_noRoute ir ⟨ing.ns, ing.name⟩ hnr
    simp only [externalAuthFeature, List.foldl_cons, List.foldl_nil, hfind]
    rcases hc : parseExternalAuthConfig ing with _ | config <;> simp [hc, hfind]
  · intro ing ir k hk
    simp only [externalAuthFeature, List.foldl_cons, List.foldl_nil]
    split
    · rfl
    · split
      · rfl
      · exact mapGet_mapSet_ne _ _ _ _ hk
  · intro ing ir hnr
    have hfind := findHTTPRouteKey_of_noRoute ir ⟨ing.ns, ing.name⟩ hnr
    have hstep : psRouteStep ir ing = ir := by
      simp only [psRouteStep]
      rcases hc : parseProxySettings ing with _ | config <;> simp [hfind]
    constructor
    · show (List.foldl lbStepIngress (List.foldl psRouteStep ir [ing]) [ing]).httpRoutes
        = ir.httpRoutes
      rw [hlbRoutes [ing]]
      simp [hstep]
    · rfl
  · intro ing ir k hk
    show mapGet ((List.foldl lbStepIngress (List.foldl psRouteStep ir [ing]) [ing]).httpRoutes) k
      = mapGet ir.httpRoutes k
    rw [hlbRoutes [ing]]
    simp only [List.foldl_cons, List.foldl_nil, psRouteStep]
    split
    · rfl
    · split
      · rfl
      · exact mapGet_mapSet_ne _ _ _ _ hk

/-- Witness for C4: the amended behavior at concrete inputs — the pass
silently skips on an empty IR, and the write into the two-route IR leaves
the second route (the one the object contributes to) unchanged. -/
theorem c4_witness :
    rateLimitFeature [c4Ingress] (⟨[], [], []⟩ : IR) = (⟨[], [], []⟩, []) ∧
    mapGet ((rateLimitFeature [c4Ingress] c4TwoRouteIR).1).httpRoutes
        ⟨"ns".toList, "ing2-route".toList⟩
      = mapGet c4TwoRouteIR.httpRoutes ⟨"ns".toList, "ing2-route".toList⟩ := by
  constructor
  · exact c4_first_route_in_namespace_targeting.1 c4Ingress ⟨[], [], []⟩ (by decide)
      (fun p hp => absurd hp (List.not_mem_nil p))
  · exact c4_first_route_in_namespace_targeting.2.1 c4Ingress c4TwoRouteIR
      ⟨"ns".toList, "ing2-route".toList⟩ (by decide)

/-- C8: backend-protocol policy generation is idempotent — for two source
objects in the same namespace both referencing backend service `s`, exactly
one backend TLS policy is produced under the deterministic key
`(namespace, s + "-backend-tls")`; the policy is the one built from the
first object's config, and the existing entry is skipped (not overwritten
or duplicated) when the second object is processed. -/
theorem c8_backend_policy_idempotent :
    ∀ (ing1 ing2 : Ingress) (ir : IR) (s : GoString) (c1 c2 : BackendTLSConfig)
      (p : BackendTLSPolicy),
      ing2.ns = ing1.ns →
      parseBackendTLSConfig ing1 = some c1 →
      parseBackendTLSConfig ing2 = some c2 →
      (∃ b ∈ extractBackendServices ing1, b.serviceName = s) →
      (∃ b ∈ extractBackendServices ing2, b.serviceName = s) →
      mapGet ir.backendTLSPolicies ⟨ing1.ns, s ++ "-backend-tls".toList⟩ = none →
      buildBackendTLSPolicy (s ++ "-backend-tls".toList) ing1.ns s (some c1) = some p →
      mapGet ((backendProtocolFeature [ing1, ing2] ir).backendTLSPolicies)
          ⟨ing1.ns, s ++ "-backend-tls".toList⟩ = some p ∧
      mapCountKey ((backendProtocolFeature [ing1, ing2] ir).backendTLSPolicies)
          ⟨ing1.ns, s ++ "-backend-tls".toList⟩ = 1 := by
  intro ing1 ing2 ir s c1 c2 p hns hp1 hp2 hm1 _hm2 hnone hp
  simp only [backendProtocolFeature, List.foldl_cons, List.foldl_nil, hp1, hp2]
  have h1 := foldBackends_insert ing1.ns c1 s p hp (extractBackendServices ing1) ir hm1 hnone
  constructor
  · exact foldBackends_get_preserve ing2.ns c2 _ _ _ _ h1.1
  · rw [foldBackends_count_preserve ing2.ns c2 _ _ _ _ h1.1]
    exact h1.2

/-- Witness for C8: two HTTPS ingresses in namespace `ns`, both referencing
service `svc`, yield exactly one BackendTLSPolicy `ns/svc-backend-tls`. -/
theorem c8_witness :
    mapGet ((backendProtocolFeature [c8Ingress ("i1".toList), c8Ingress ("i2".toList)]
        ⟨[], [], []⟩).backendTLSPolicies) ⟨"ns".toList, "svc-backend-tls".toList⟩
      = some ⟨"svc-backend-tls".toList, "ns".toList, "svc".toList, "svc".toList,
          none, some ("System".toList)⟩ ∧
    mapCountKey ((backendProtocolFeature [c8Ingress ("i1".toList), c8Ingress ("i2".toList)]
        ⟨[], [], []⟩).backendTLSPolicies) ⟨"ns".toList, "svc-backend-tls".toList⟩ = 1 := by
  have h := c8_backend_policy_idempotent (c8Ingress ("i1".toList)) (c8Ingress ("i2".toList))
    ⟨[], [], []⟩ ("svc".toList)
    ⟨"HTTPS".toList, [], false, [], [], [], [], 0, "ns".toList⟩
    ⟨"HTTPS".toList, [], false, [], [], [], [], 0, "ns".toList⟩
    ⟨"svc-backend-tls".toList, "ns".toList, "svc".toList, "svc".toList, none, some ("System".toList)⟩
    rfl (by decide) (by decide)
    ⟨⟨"svc".toList, 443⟩, by decide, rfl⟩ ⟨⟨"svc".toList, 443⟩, by decide, rfl⟩
    rfl (by decide)
  simpa using h

/-- Counterexample for C7: on an object with CA secret `ca-secret` and the
out-of-enum verify mode `bogus`, the pass records exactly the validation
error but writes nothing into the IR — the client-cert-auth record (with
the safe default substituted) is built by the parser and then discarded,
so no record appears in the IR, contrary to the claim. -/
theorem c7_record_discarded_counterexample :
    (clientCertAuthFeature [c7Ingress] c7OneRouteIR).1 = c7OneRouteIR ∧
    mapGet ((clientCertAuthFeature [c7Ingress] c7OneRouteIR).1).httpRoutes
      ⟨"ns".toList, "r1".toList⟩ = some HTTPRouteContext.zero ∧
    (clientCertAuthFeature [c7Ingress] c7OneRouteIR).2
      = [annErr authTLSVerifyClientAnn ("bogus".toList)
          ("invalid verify-client value, must be one of: on, off, optional, optional_no_ca".toList)] := by
  refine ⟨by decide, by decide, by decide⟩

/-- C7 (amended): for a source object whose client-certificate-auth
verify-mode annotation value is outside the closed enum
(on, off, optional, optional_no_ca), the pass records a validation error
attributed to that annotation; the parser substitutes the safe default
verify mode ("on") into the record it returns, but the feature skips the
object on parse errors, so the record is not written into the IR (the IR
is returned unchanged). -/
theorem c7_invalid_verify_mode_error_and_skip :
    ∀ (ing : Ingress) (ir : IR),
      annGet ing.anns authTLSSecretAnn ≠ [] →
      annGet ing.anns authTLSVerifyClientAnn ≠ [] →
      ¬(annGet ing.anns authTLSVerifyClientAnn = "on".toList ∨
        annGet ing.anns authTLSVerifyClientAnn = "off".toList ∨
        annGet ing.anns authTLSVerifyClientAnn = "optional".toList ∨
        annGet ing.anns authTLSVerifyClientAnn = "optional_no_ca".toList) →
      ((parseClientCertAuthConfig ing).1).map ClientCertAuthConfig.verifyClient
          = some ("on".toList) ∧
      ((parseClientCertAuthConfig ing).2).head?
          = some (annErr authTLSVerifyClientAnn (annGet ing.anns authTLSVerifyClientAnn)
              ("invalid verify-client value, must be one of: on, off, optional, optional_no_ca".toList)) ∧
      clientCertAuthFeature [ing] ir = (ir, (parseClientCertAuthConfig ing).2) := by
  intro ing ir h1 h2 h3
  obtain ⟨d, tail, H⟩ := parseClientCertAuthConfig_invalid ing h1 h2 h3
  refine ⟨?_, ?_, ?_⟩
  · rw [H]
    rfl
  · rw [H]
    rfl
  · simp only [clientCertAuthFeature, List.foldl_cons, List.foldl_nil, H]
    simp

/-- Witness for C7: the amended theorem applied at the concrete bad-verify
ingress and one-route IR. -/
theorem c7_witness :
    ((parseClientCertAuthConfig c7Ingress).1).map ClientCertAuthConfig.verifyClient
        = some ("on".toList) ∧
    clientCertAuthFeature [c7Ingress] c7OneRouteIR
        = (c7OneRouteIR, (parseClientCertAuthConfig c7Ingress).2) := by
  have h := c7_invalid_verify_mode_error_and_skip c7Ingress c7OneRouteIR
    (by decide) (by decide) (by decide)
  exact ⟨h.1, h.2.2⟩

/-- C9: every source object carrying a free-form scriptlet annotation
(server-snippet or configuration-snippet) yields at least one blocking
(error-severity, the highest) diagnostic attributed to that object.  The
pass takes no topology-mode input at all, and the statement quantifies
over arbitrary other annotations on the object. -/
theorem c9_scriptlet_always_blocking :
    ∀ (ingresses : List Ingress) (ing : Ingress) (key : GoString),
      ing ∈ ingresses →
      (key = serverSnippetAnnKey ∨ key = configurationSnippetAnnKey) →
      annHas ing.anns key = true →
      ∃ n ∈ appLevelWarningsFeature ingresses,
        n.ntype = NotifType.error ∧ n.objName = some ⟨ing.ns, ing.name⟩ := by
  intro ings ing key hmem hkey hhas
  have hv : ∃ v, mapGet ing.anns key = some v := by
    unfold annHas mapHasKey at hhas
    exact Option.isSome_iff_exists.mp hhas
  obtain ⟨v, hv⟩ := hv
  have hpair : ∃ msg, (key, msg) ∈ appLevelAnnList := by
    rcases hkey with h | h <;> subst h
    · exact ⟨serverSnippetMsg, by simp [appLevelAnnList]⟩
    · exact ⟨configurationSnippetMsg, by simp [appLevelAnnList]⟩
  obtain ⟨msg, hpair⟩ := hpair
  refine ⟨⟨NotifType.error,
    "MIGRATION BLOCKER - ".toList ++ key ++ "\n".toList ++ goTrimSpace msg ++
      "\nCurrent value: ".toList ++ truncateValue v, some ⟨ing.ns, ing.name⟩⟩, ?_, rfl, rfl⟩
  unfold appLevelWarningsFeature
  apply List.mem_flatMap.mpr
  refine ⟨ing, hmem, ?_⟩
  apply List.mem_append_left
  apply List.mem_append_left
  apply List.mem_filterMap.mpr
  refine ⟨(key, msg), hpair, ?_⟩
  rw [hv]

/-- Witness for C9: the theorem applied at the concrete ingress carrying a
server-snippet annotation (alongside an unrelated annotation). -/
theorem c9_witness :
    ∃ n ∈ appLevelWarningsFeature [c9Ingress],
      n.ntype = NotifType.error ∧ n.objName = some ⟨"ns".toList, "ing".toList⟩ := by
  have h := c9_scriptlet_always_blocking [c9Ingress] c9Ingress serverSnippetAnnKey
    (List.mem_cons_self _ _) (Or.inl rfl) (by decide)
  simpa using h

/-- Witness for C10: the theorem applied at concrete inputs — "0" defaults
to 1 GiB, the unparsable "abc" defaults to 1 GiB, and "10k" converts to
10240 bytes. -/
theorem c10_witness :
    (buildBodySizeEnvoyFilter ⟨"ns".toList, "f".toList⟩ [] [] ("0".toList)).maxRequestBytes
        = 1073741824 ∧
    (buildBodySizeEnvoyFilter ⟨"ns".toList, "f".toList⟩ [] [] ("abc".toList)).maxRequestBytes
        = 1073741824 ∧
    ParseBodySize ("10k".toList) = Except.ok 10240 := by
  refine ⟨?_, ?_, ?_⟩
  · exact (c10_body_size_default_and_conversion.1 ⟨"ns".toList, "f".toList⟩ [] []).1
  · exact c10_body_size_default_and_conversion.2.1 ⟨"ns".toList, "f".toList⟩ [] []
      ("abc".toList) ("invalid body size: abc".toList) rfl
  · have h := (c10_body_size_default_and_conversion.2.2 ("10".toList) (by decide)
      (by decide) (by decide)).1
    simpa using h

end I2GW
